import Mathlib

/-!
Verification development for the leadgen lead-discovery engine.

The Python sources (`scraper.py`, `instagram_scraper.py`, `linkedin_scraper.py`,
`web_crawler.py`, `app.py`) are shallowly embedded below.  Python strings are
embedded as lists of characters (`Str`); Python dictionaries produced by
`dataclasses.asdict` are embedded as structures whose fields carry `Option Str`
wherever the code accesses them through `dict.get` with a default (a missing
key is `none`).  Stateful control flow (job runners, stop flags, retry loops)
is embedded as explicit state passing, with the points at which the shared
stop flag is observed made explicit as parameters.
-/

namespace Leadgen

/-- A Python string, embedded as its list of characters. -/
abbrev Str := List Char

/-- The explicit unknown marker used by the cleaning functions. -/
def NA : Str := "N/A".data

/-- The ASCII case table: uppercase letter paired with its lowercase form. -/
def CASE_TABLE : List (Char × Char) :=
  [('A', 'a'), ('B', 'b'), ('C', 'c'), ('D', 'd'), ('E', 'e'), ('F', 'f'),
   ('G', 'g'), ('H', 'h'), ('I', 'i'), ('J', 'j'), ('K', 'k'), ('L', 'l'),
   ('M', 'm'), ('N', 'n'), ('O', 'o'), ('P', 'p'), ('Q', 'q'), ('R', 'r'),
   ('S', 's'), ('T', 't'), ('U', 'u'), ('V', 'v'), ('W', 'w'), ('X', 'x'),
   ('Y', 'y'), ('Z', 'z')]

/-- ASCII lowercasing of a single character (embedding of Python
`str.lower` restricted to the ASCII range the sources manipulate). -/
def lowerChar (c : Char) : Char :=
  ((CASE_TABLE.find? (fun p => p.1 = c)).map Prod.snd).getD c

/-- ASCII uppercasing of a single character (embedding of Python
`str.upper` restricted to ASCII, used by `str.title`). -/
def upperChar (c : Char) : Char :=
  ((CASE_TABLE.find? (fun p => p.2 = c)).map Prod.fst).getD c

/-- Embedding of Python `str.lower`. -/
def pyLower (s : Str) : Str := s.map lowerChar

/-- Python whitespace, as stripped by `str.strip()` with no argument. -/
def isSpaceChar (c : Char) : Bool :=
  c = ' ' ∨ c = '\t' ∨ c = '\n' ∨ c = '\r' ∨ c = '\x0b' ∨ c = '\x0c'

/-- Embedding of Python `str.strip()` (no argument: strip whitespace). -/
def pyStrip (s : Str) : Str :=
  ((s.dropWhile isSpaceChar).reverse.dropWhile isSpaceChar).reverse

/-- Embedding of Python `str.strip(chars)`: strip any of the given
characters from both ends. -/
def pyStripSet (cs : List Char) (s : Str) : Str :=
  ((s.dropWhile (· ∈ cs)).reverse.dropWhile (· ∈ cs)).reverse

/-- Embedding of Python `str.rstrip(chars)`. -/
def pyRStripSet (cs : List Char) (s : Str) : Str :=
  (s.reverse.dropWhile (· ∈ cs)).reverse

/-- Embedding of Python `str.split(c)` for a single-character separator. -/
def splitChar (c : Char) : Str → List Str
  | [] => [[]]
  | x :: xs =>
    if x = c then [] :: splitChar c xs
    else
      match splitChar c xs with
      | [] => [[x]]
      | h :: t => (x :: h) :: t

/-- Embedding of the Python substring test `needle in hay`. -/
def hasSubstr (needle : Str) : Str → Bool
  | [] => needle.isEmpty
  | c :: rest => needle.isPrefixOf (c :: rest) || hasSubstr needle rest

/-- Embedding of Python `sep.join(pieces)`. -/
def joinSep (sep : Str) : List Str → Str
  | [] => []
  | [s] => s
  | s :: rest => s ++ sep ++ joinSep sep rest

/-- Lexicographic comparison of strings by code point, embedding the order
used by Python `sorted` on `str`. -/
def strLe : Str → Str → Bool
  | [], _ => true
  | _ :: _, [] => false
  | a :: as, b :: bs => if a = b then strLe as bs else decide (a < b)

/-- Insertion into a `strLe`-sorted list. -/
def insSorted (x : Str) : List Str → List Str
  | [] => [x]
  | y :: ys => if strLe x y then x :: y :: ys else y :: insSorted x ys

/-- Insertion sort with `strLe`, embedding Python `sorted` on strings. -/
def sortStrs : List Str → List Str
  | [] => []
  | x :: xs => insSorted x (sortStrs xs)

/-- Duplicate removal, keeping first occurrences: with `sortStrs`, the
composition embeds Python `sorted(set)` on the accumulated string set. -/
def dedupStrs : List Str → List Str
  | [] => []
  | x :: xs => x :: dedupStrs (xs.filter (· ≠ x))
termination_by l => l.length
decreasing_by
  exact Nat.lt_succ_of_le (List.length_filter_le _ _)

/-- Embedding of the idiom `value or default` for Python strings, where the
empty string is the only falsy value. -/
def orElseStr (v : Str) (d : Str) : Str := if v = [] then d else v

/-- Embedding of `lead.get(key, "N/A") or "N/A"`, the field-normalisation
idiom used by all the cleaning functions: a missing key and an empty string
both become the explicit `N/A` marker. -/
def orNA (v : Option Str) : Str := orElseStr (v.getD NA) NA

theorem splitChar_ne_nil (c : Char) (s : Str) : splitChar c s ≠ [] := by
  induction s with
  | nil => simp [splitChar]
  | cons x xs ih =>
    simp only [splitChar]
    split
    · simp
    · split <;> simp

theorem mem_dedupStrs {y : Str} : ∀ {l : List Str}, y ∈ dedupStrs l → y ∈ l
  | [], h => by simp [dedupStrs] at h
  | x :: xs, h => by
    rw [dedupStrs] at h
    rcases List.mem_cons.mp h with h | h
    · exact h ▸ List.mem_cons_self _ _
    · exact List.mem_cons_of_mem _ (List.mem_of_mem_filter (mem_dedupStrs h))
termination_by l => l.length
decreasing_by
  exact Nat.lt_succ_of_le (List.length_filter_le _ _)

theorem mem_insSorted {y x : Str} {l : List Str} (h : y ∈ insSorted x l) :
    y = x ∨ y ∈ l := by
  induction l with
  | nil => simpa [insSorted] using h
  | cons z zs ih =>
    rw [insSorted] at h
    split at h
    · rcases List.mem_cons.mp h with h | h
      · exact Or.inl h
      · exact Or.inr h
    · rcases List.mem_cons.mp h with h | h
      · exact Or.inr (h ▸ List.mem_cons_self _ _)
      · rcases ih h with h | h
        · exact Or.inl h
        · exact Or.inr (List.mem_cons_of_mem _ h)

theorem mem_sortStrs {y : Str} {l : List Str} (h : y ∈ sortStrs l) : y ∈ l := by
  induction l with
  | nil => simp [sortStrs] at h
  | cons x xs ih =>
    rw [sortStrs] at h
    rcases mem_insSorted (l := sortStrs xs) h with h | h
    · exact h ▸ List.mem_cons_self _ _
    · exact List.mem_cons_of_mem _ (ih h)

theorem lowerChar_of_find?_none {c : Char}
    (h : CASE_TABLE.find? (fun p => p.1 = c) = none) : lowerChar c = c := by
  unfold lowerChar; rw [h]; rfl

theorem lowerChar_of_find?_some {c : Char} {p : Char × Char}
    (h : CASE_TABLE.find? (fun p => p.1 = c) = some p) : lowerChar c = p.2 := by
  unfold lowerChar; rw [h]; rfl

theorem find?_caseTable_snd_none :
    ∀ p ∈ CASE_TABLE, CASE_TABLE.find? (fun q => q.1 = p.2) = none := by
  decide

theorem lowerChar_eq_iff_of_sym {c d : Char}
    (hd : lowerChar d = d) (hsnd : ∀ p ∈ CASE_TABLE, p.2 ≠ d) :
    lowerChar c = d ↔ c = d := by
  constructor
  · intro h
    cases hfind : CASE_TABLE.find? (fun p => p.1 = c) with
    | none => rw [lowerChar_of_find?_none hfind] at h; exact h
    | some p =>
      rw [lowerChar_of_find?_some hfind] at h
      exact absurd h (hsnd p (List.mem_of_find?_eq_some hfind))
  · intro h; rw [h]; exact hd

theorem lowerChar_idem (c : Char) : lowerChar (lowerChar c) = lowerChar c := by
  cases hfind : CASE_TABLE.find? (fun p => p.1 = c) with
  | none => simp only [lowerChar_of_find?_none hfind]
  | some p =>
    rw [lowerChar_of_find?_some hfind]
    exact lowerChar_of_find?_none
      (find?_caseTable_snd_none p (List.mem_of_find?_eq_some hfind))

theorem pyLower_idem (s : Str) : pyLower (pyLower s) = pyLower s := by
  simp only [pyLower, List.map_map]
  exact List.map_congr_left fun c _ => lowerChar_idem c

theorem pyLower_eq_nil_iff (s : Str) : pyLower s = [] ↔ s = [] := by
  simp [pyLower]

theorem hasSubstr_single {c : Char} : ∀ {s : Str}, hasSubstr [c] s = true ↔ c ∈ s
  | [] => by simp [hasSubstr]
  | x :: rest => by
    rw [hasSubstr, Bool.or_eq_true, hasSubstr_single (s := rest)]
    simp only [List.isPrefixOf, List.mem_cons, Bool.and_eq_true, beq_iff_eq]
    constructor
    · rintro (⟨h, -⟩ | h)
      · exact Or.inl h
      · exact Or.inr h
    · rintro (h | h)
      · exact Or.inl ⟨h, trivial⟩
      · exact Or.inr h

theorem one_le_length_splitChar (c : Char) (s : Str) :
    1 ≤ (splitChar c s).length :=
  List.length_pos.mpr (splitChar_ne_nil c s)

theorem two_le_length_splitChar {c : Char} :
    ∀ {s : Str}, c ∈ s → 2 ≤ (splitChar c s).length
  | [], h => by simp at h
  | x :: xs, h => by
    rw [splitChar]
    split
    · simpa using Nat.succ_le_succ (one_le_length_splitChar c xs)
    · rename_i hxc
      have hmem : c ∈ xs := by
        rcases List.mem_cons.mp h with h | h
        · exact absurd h.symm hxc
        · exact h
      have ih := two_le_length_splitChar hmem
      cases hsp : splitChar c xs with
      | nil => exact absurd hsp (splitChar_ne_nil c xs)
      | cons a t => rw [hsp] at ih; simpa using ih

/-- Embedding of a fallible Python list subscript `l[i]`: raises
`IndexError` when the index is out of range. -/
def pyIndex (l : List α) (i : Nat) : Except Unit α :=
  match l[i]? with
  | some a => .ok a
  | none => .error ()

theorem pyIndex_eq_ok_getD {l : List Str} {i : Nat} (h : i < l.length) :
    pyIndex l i = .ok (l.getD i []) := by
  unfold pyIndex
  rw [List.getElem?_eq_getElem h]
  simp [List.getD, List.getElem?_eq_getElem h]

theorem pyIndex_zero_of_ne_nil {l : List Str} (h : l ≠ []) :
    pyIndex l 0 = .ok (l.getD 0 []) :=
  pyIndex_eq_ok_getD (List.length_pos.mpr h)

/-! ## Email validation (`_is_valid_email` in all three scraper classes) -/

/-- The image/file extensions rejected by every `_is_valid_email`. -/
def ASSET_SUFFIXES : List Str :=
  [".png".data, ".jpg".data, ".gif".data, ".svg".data,
   ".webp".data, ".js".data, ".css".data]

/-- `domain.endswith((".png", ".jpg", ".gif", ".svg", ".webp", ".js", ".css"))`. -/
def hasAssetSuffix (domain : Str) : Bool :=
  ASSET_SUFFIXES.any (fun suf => suf.isSuffixOf domain)

/-- `EMAIL_BLACKLIST` from `scraper.py`. -/
def EMAIL_BLACKLIST_GMAPS : List Str :=
  ["example.com".data, "test.com".data, "email.com".data, "domain.com".data,
   "yoursite.com".data, "company.com".data, "website.com".data,
   "sentry.io".data, "wixpress.com".data, "w3.org".data, "schema.org".data,
   "googleapis.com".data, "googleusercontent.com".data, "gstatic.com".data]

/-- `EMAIL_BLACKLIST` from `instagram_scraper.py`. -/
def EMAIL_BLACKLIST_IG : List Str :=
  EMAIL_BLACKLIST_GMAPS ++
  ["apple.com".data, "facebook.com".data, "instagram.com".data,
   "twitter.com".data]

/-- `EMAIL_BLACKLIST` from `web_crawler.py`. -/
def EMAIL_BLACKLIST_WEB : List Str :=
  EMAIL_BLACKLIST_GMAPS ++
  ["facebook.com".data, "twitter.com".data, "instagram.com".data,
   "linkedin.com".data, "google.com".data, "bing.com".data,
   "microsoft.com".data, "apple.com".data, "amazon.com".data]

/-- Embedding of the `_is_valid_email` staticmethod shared (up to the
blacklist constant) by `GoogleMapsScraper`, `InstagramScraper` and
`WebCrawlerScraper`: reject empty strings and strings without `@`, then
take `email.split("@")[1].lower()` and reject blacklisted domains and
asset-file extensions. -/
def is_valid_email (bl : List Str) (email : Str) : Bool :=
  if email = [] then false
  else if ¬ hasSubstr ['@'] email then false
  else
    let domain := pyLower ((splitChar '@' email).getD 1 [])
    if domain ∈ bl then false
    else if hasAssetSuffix domain then false
    else true

/-- The same function with the list subscript `email.split("@")[1]` made
explicitly fallible, to settle that it can never raise. -/
def is_valid_email_ex (bl : List Str) (email : Str) : Except Unit Bool :=
  if email = [] then .ok false
  else if ¬ hasSubstr ['@'] email then .ok false
  else
    match pyIndex (splitChar '@' email) 1 with
    | .error e => .error e
    | .ok d =>
      let domain := pyLower d
      if domain ∈ bl then .ok false
      else if hasAssetSuffix domain then .ok false
      else .ok true

theorem is_valid_email_ex_eq (bl : List Str) (email : Str) :
    is_valid_email_ex bl email = .ok (is_valid_email bl email) := by
  unfold is_valid_email_ex is_valid_email
  split
  · rfl
  · split
    · rfl
    · rename_i hat
      have hin : '@' ∈ email :=
        hasSubstr_single.mp (not_not.mp hat)
      rw [pyIndex_eq_ok_getD (Nat.lt_of_lt_of_le Nat.one_lt_two
        (two_le_length_splitChar hin))]
      dsimp only
      split
      · rfl
      · split <;> rfl

/-! ## `EMAIL_RE.findall` -/

/-- Character class `[a-zA-Z0-9._%+\-]` — the local part of `EMAIL_RE`. -/
def isLocalChar (c : Char) : Bool :=
  c.isAlphanum ∨ c = '.' ∨ c = '_' ∨ c = '%' ∨ c = '+' ∨ c = '-'

/-- Character class `[a-zA-Z0-9.\-]` — the domain part of `EMAIL_RE`. -/
def isDomChar (c : Char) : Bool := c.isAlphanum ∨ c = '.' ∨ c = '-'

/-- Scan of the domain-character run for the rightmost dot that is preceded
by at least one domain character and followed by at least two ASCII
letters; this is where the greedy `[a-zA-Z0-9.\-]+\.[a-zA-Z]{2,}` tail of
`EMAIL_RE` settles after backtracking.  Returns the length of the domain
portion matched. -/
def tldScan : Str → Nat → Option Nat → Option Nat
  | [], _, best => best
  | c :: rest, i, best =>
    if c = '.' ∧ 1 ≤ i ∧ 2 ≤ (rest.takeWhile Char.isAlpha).length then
      tldScan rest (i + 1)
        (some (i + 1 + (rest.takeWhile Char.isAlpha).length))
    else tldScan rest (i + 1) best

/-- One attempted match of `EMAIL_RE` anchored at the start of `s`:
the maximal run of local characters, a literal `@`, and the backtracked
domain match.  Returns the matched email and the unconsumed suffix. -/
def emailMatchAt (s : Str) : Option (Str × Str) :=
  let loc := s.takeWhile isLocalChar
  if loc = [] then none
  else
    match s.drop loc.length with
    | '@' :: afterAt =>
      let D := afterAt.takeWhile isDomChar
      match tldScan D 0 none with
      | none => none
      | some dlen => some (loc ++ '@' :: D.take dlen, afterAt.drop dlen)
    | _ => none

/-- Fuelled scan embedding `EMAIL_RE.findall`: attempt a match at every
position from left to right, emitting non-overlapping matches and resuming
after each match.  Fuel `s.length` suffices because every step consumes at
least one character. -/
def emailFindAllAux : Nat → Str → List Str
  | 0, _ => []
  | _, [] => []
  | fuel + 1, c :: rest =>
    match emailMatchAt (c :: rest) with
    | some (m, after) => m :: emailFindAllAux fuel after
    | none => emailFindAllAux fuel rest

/-- Embedding of `EMAIL_RE.findall(s)`. -/
def emailFindAll (s : Str) : List Str := emailFindAllAux s.length s

/-! ## Lead records and the cleaning functions -/

/-- The `BusinessLead` dataclass from `scraper.py`. -/
structure BusinessLead where
  business_name : Str := []
  owner_name : Str := []
  phone : Str := []
  website : Str := []
  email : Str := []
  address : Str := []
  rating : Str := []
  reviews : Str := []
  category : Str := []
  facebook : Str := []
  instagram : Str := []
  twitter : Str := []
  linkedin : Str := []
  youtube : Str := []
  tiktok : Str := []
  pinterest : Str := []
deriving DecidableEq, Repr

/-- A Google-Maps lead dictionary as consumed by `clean_leads` (a missing
key is `none`; `dataclasses.asdict` always produces `some`). -/
structure BLeadDict where
  business_name : Option Str := none
  owner_name : Option Str := none
  phone : Option Str := none
  website : Option Str := none
  email : Option Str := none
  address : Option Str := none
  rating : Option Str := none
  reviews : Option Str := none
  category : Option Str := none
  facebook : Option Str := none
  instagram : Option Str := none
  twitter : Option Str := none
  linkedin : Option Str := none
  youtube : Option Str := none
  tiktok : Option Str := none
  pinterest : Option Str := none
deriving DecidableEq, Repr

/-- Embedding of `dataclasses.asdict` on a `BusinessLead`. -/
def asdictB (l : BusinessLead) : BLeadDict :=
  { business_name := some l.business_name, owner_name := some l.owner_name,
    phone := some l.phone, website := some l.website, email := some l.email,
    address := some l.address, rating := some l.rating,
    reviews := some l.reviews, category := some l.category,
    facebook := some l.facebook, instagram := some l.instagram,
    twitter := some l.twitter, linkedin := some l.linkedin,
    youtube := some l.youtube, tiktok := some l.tiktok,
    pinterest := some l.pinterest }

/-- The characters kept by `re.sub(r"[^\d+\-() ]", "", phone)`. -/
def isPhoneChar (c : Char) : Bool :=
  c.isDigit ∨ c = '+' ∨ c = '-' ∨ c = '(' ∨ c = ')' ∨ c = ' '

/-- The record shape emitted by `clean_leads`. -/
structure CleanedGmapsLead where
  business_name : Str
  owner_name : Str
  phone : Str
  website : Str
  email : Str
  address : Str
  rating : Str
  reviews : Str
  category : Str
  facebook : Str
  instagram : Str
  twitter : Str
  linkedin : Str
  youtube : Str
  tiktok : Str
  pinterest : Str
deriving DecidableEq, Repr

/-- The loop of `clean_leads` from `scraper.py`, with the `seen_names` set
carried explicitly. -/
def clean_leads_go : List BLeadDict → List Str → List CleanedGmapsLead
  | [], _ => []
  | lead :: rest, seen =>
    let name := pyStrip (lead.business_name.getD [])
    if name = [] ∨ pyLower name = ("unknown").data ∨ name ∈ seen then
      clean_leads_go rest seen
    else
      let phone0 := lead.phone.getD []
      let phone :=
        if phone0 = [] then phone0 else pyStrip (phone0.filter isPhoneChar)
      let website0 := lead.website.getD []
      let website :=
        if website0 ≠ [] ∧ ¬ (("http").data.isPrefixOf website0) then
          ("https://").data ++ website0
        else website0
      { business_name := name,
        owner_name := orNA lead.owner_name,
        phone := orElseStr phone NA,
        website := orElseStr website NA,
        email := orNA lead.email,
        address := orNA lead.address,
        rating := orNA lead.rating,
        reviews := orNA lead.reviews,
        category := orNA lead.category,
        facebook := orNA lead.facebook,
        instagram := orNA lead.instagram,
        twitter := orNA lead.twitter,
        linkedin := orNA lead.linkedin,
        youtube := orNA lead.youtube,
        tiktok := orNA lead.tiktok,
        pinterest := orNA lead.pinterest } :: clean_leads_go rest (name :: seen)

/-- `clean_leads` from `scraper.py`. -/
def clean_leads (leads : List BLeadDict) : List CleanedGmapsLead :=
  clean_leads_go leads []

/-- The `InstagramLead` dataclass from `instagram_scraper.py`. -/
structure InstagramLead where
  username : Str := []
  profile_url : Str := []
  display_name : Str := []
  bio : Str := []
  email : Str := []
  phone : Str := []
  website : Str := []
  category : Str := []
  followers : Str := []
  location : Str := []
deriving DecidableEq, Repr

/-- An Instagram lead dictionary (`asdict(InstagramLead)` or an arbitrary
dict) as consumed by `clean_instagram_leads` and `_merge_enrichment`. -/
structure ILeadDict where
  username : Option Str := none
  profile_url : Option Str := none
  display_name : Option Str := none
  bio : Option Str := none
  email : Option Str := none
  phone : Option Str := none
  website : Option Str := none
  category : Option Str := none
  followers : Option Str := none
  location : Option Str := none
deriving DecidableEq, Repr

/-- Embedding of `dataclasses.asdict` on an `InstagramLead`. -/
def asdictIG (l : InstagramLead) : ILeadDict :=
  { username := some l.username, profile_url := some l.profile_url,
    display_name := some l.display_name, bio := some l.bio,
    email := some l.email, phone := some l.phone, website := some l.website,
    category := some l.category, followers := some l.followers,
    location := some l.location }

/-- The record shape emitted by `clean_instagram_leads`. -/
structure CleanedInstagramLead where
  username : Str
  profile_url : Str
  display_name : Str
  bio : Str
  email : Str
  phone : Str
  website : Str
  category : Str
  followers : Str
  location : Str
deriving DecidableEq, Repr

/-- The loop of `clean_instagram_leads` from `instagram_scraper.py`. -/
def clean_instagram_leads_go :
    List ILeadDict → List Str → List CleanedInstagramLead
  | [], _ => []
  | lead :: rest, seen =>
    let username := pyStrip (lead.username.getD [])
    if username = [] ∨ username ∈ seen then
      clean_instagram_leads_go rest seen
    else
      { username := username,
        profile_url := orNA lead.profile_url,
        display_name := orNA lead.display_name,
        bio := orNA lead.bio,
        email := orNA lead.email,
        phone := orNA lead.phone,
        website := orNA lead.website,
        category := orNA lead.category,
        followers := orNA lead.followers,
        location := orNA lead.location }
        :: clean_instagram_leads_go rest (username :: seen)

/-- `clean_instagram_leads` from `instagram_scraper.py` (its `search_type`
argument is unused by the body and omitted here). -/
def clean_instagram_leads (leads : List ILeadDict) :
    List CleanedInstagramLead :=
  clean_instagram_leads_go leads []

/-- Word character test for the regex class `\w` (`[a-zA-Z0-9_]`). -/
def isWordChar (c : Char) : Bool := c.isAlphanum ∨ c = '_'

/-- Character class `[\w\-]`. -/
def isWordDash (c : Char) : Bool := isWordChar c ∨ c = '-'

/-- Embedding of `re.search(r'linkedin\.com/in/([\w\-]+)', s)`: the first
occurrence of the literal `linkedin.com/in/` followed by at least one
`[\w\-]` character; group 1 is the maximal such run. -/
def searchLinkedinUser : Str → Option Str
  | [] => none
  | c :: rest =>
    if (("linkedin.com/in/").data).isPrefixOf (c :: rest) then
      let after := (c :: rest).drop ("linkedin.com/in/").data.length
      let run := after.takeWhile isWordDash
      if run = [] then searchLinkedinUser rest else some run
    else searchLinkedinUser rest

/-- A LinkedIn profile lead dictionary as consumed by
`clean_linkedin_leads` in `profiles` mode. -/
structure LProfileDict where
  name : Option Str := none
  title : Option Str := none
  company : Option Str := none
  location : Option Str := none
  profile_url : Option Str := none
  linkedin_username : Option Str := none
  snippet : Option Str := none
deriving DecidableEq, Repr

/-- The record shape emitted by `clean_linkedin_leads` in `profiles` mode. -/
structure CleanedLProfile where
  name : Str
  title : Str
  company : Str
  location : Str
  profile_url : Str
  linkedin_username : Str
  snippet : Str
deriving DecidableEq, Repr

/-- The `profiles` branch of the `clean_linkedin_leads` loop from
`linkedin_scraper.py` (dedup key: `profile_url`). -/
def clean_linkedin_profiles_go :
    List LProfileDict → List Str → List CleanedLProfile
  | [], _ => []
  | lead :: rest, seen =>
    let key := lead.profile_url.getD []
    let name := pyStrip (lead.name.getD [])
    if name = [] ∨ key ∈ seen then clean_linkedin_profiles_go rest seen
    else
      let username0 := lead.linkedin_username.getD []
      let username :=
        if username0 = [] ∧ key ≠ [] then (searchLinkedinUser key).getD []
        else username0
      { name := name,
        title := orNA lead.title,
        company := orNA lead.company,
        location := orNA lead.location,
        profile_url := orElseStr key NA,
        linkedin_username := orElseStr username NA,
        snippet := orNA lead.snippet }
        :: clean_linkedin_profiles_go rest (key :: seen)

/-- `clean_linkedin_leads(leads, "profiles")` from `linkedin_scraper.py`. -/
def clean_linkedin_profiles (leads : List LProfileDict) :
    List CleanedLProfile :=
  clean_linkedin_profiles_go leads []

/-- A LinkedIn company lead dictionary as consumed by
`clean_linkedin_leads` in `companies` mode. -/
structure LCompanyDict where
  company_name : Option Str := none
  industry : Option Str := none
  location : Option Str := none
  description : Option Str := none
  company_url : Option Str := none
  company_size : Option Str := none
deriving DecidableEq, Repr

/-- The record shape emitted by `clean_linkedin_leads` in `companies`
mode. -/
structure CleanedLCompany where
  company_name : Str
  industry : Str
  location : Str
  description : Str
  company_url : Str
  company_size : Str
deriving DecidableEq, Repr

/-- The `companies` branch of the `clean_linkedin_leads` loop from
`linkedin_scraper.py` (dedup key: `company_url`). -/
def clean_linkedin_companies_go :
    List LCompanyDict → List Str → List CleanedLCompany
  | [], _ => []
  | lead :: rest, seen =>
    let key := lead.company_url.getD []
    let name := pyStrip (lead.company_name.getD [])
    if name = [] ∨ key ∈ seen then clean_linkedin_companies_go rest seen
    else
      { company_name := name,
        industry := orNA lead.industry,
        location := orNA lead.location,
        description := orNA lead.description,
        company_url := orElseStr key NA,
        company_size := orNA lead.company_size }
        :: clean_linkedin_companies_go rest (key :: seen)

/-- `clean_linkedin_leads(leads, "companies")` from `linkedin_scraper.py`. -/
def clean_linkedin_companies (leads : List LCompanyDict) :
    List CleanedLCompany :=
  clean_linkedin_companies_go leads []

/-- Validity of a character inside a URL scheme for `urlparse`. -/
def isSchemeChar (c : Char) : Bool :=
  c.isAlphanum ∨ c = '+' ∨ c = '-' ∨ c = '.'

/-- Embedding of `urllib.parse.urlparse(u).netloc`: the authority component
is present only when, after an optional valid `scheme:`, the string starts
with `//`; it then extends to the next `/`, `?` or `#`. -/
def netlocOf (u : Str) : Str :=
  if (("//").data).isPrefixOf u then
    (u.drop 2).takeWhile (fun c => c ≠ '/' ∧ c ≠ '?' ∧ c ≠ '#')
  else
    match u with
    | [] => []
    | c :: rest =>
      if c.isAlpha then
        match rest.drop (rest.takeWhile isSchemeChar).length with
        | ':' :: rest2 =>
          if (("//").data).isPrefixOf rest2 then
            (rest2.drop 2).takeWhile (fun c => c ≠ '/' ∧ c ≠ '?' ∧ c ≠ '#')
          else []
        | _ => []
      else []

/-- A web-crawler lead dictionary as consumed by `clean_web_leads`. -/
structure WLeadDict where
  business_name : Option Str := none
  phone : Option Str := none
  email : Option Str := none
  website : Option Str := none
  address : Option Str := none
  description : Option Str := none
  source : Option Str := none
  facebook : Option Str := none
  instagram : Option Str := none
  twitter : Option Str := none
  linkedin : Option Str := none
  youtube : Option Str := none
deriving DecidableEq, Repr

/-- The record shape emitted by `clean_web_leads`. -/
structure CleanedWebLead where
  business_name : Str
  phone : Str
  email : Str
  website : Str
  address : Str
  description : Str
  source : Str
  facebook : Str
  instagram : Str
  twitter : Str
  linkedin : Str
  youtube : Str
deriving DecidableEq, Repr

/-- The characters kept by `re.sub(r"[^\d+\-();, ]", "", phone)` in
`clean_web_leads`. -/
def isWebPhoneChar (c : Char) : Bool := isPhoneChar c ∨ c = ';' ∨ c = ','

/-- The dedup key computed by the `clean_web_leads` loop:
`urlparse(website).netloc.lower() if website else ""` falling back on
`name.lower()`. -/
def webKey (website name : Str) : Str :=
  let domain := if website = [] then [] else pyLower (netlocOf website)
  if domain ≠ [] then domain else pyLower name

/-- The record appended by the `clean_web_leads` loop for an admitted
lead, from the stripped `website`/`name` and cleaned `phone`. -/
def cleanWebRecord (lead : WLeadDict) (website name phone : Str) :
    CleanedWebLead :=
  { business_name := orElseStr name NA,
    phone := orElseStr phone NA,
    email := orNA lead.email,
    website := orElseStr website NA,
    address := orNA lead.address,
    description := orNA lead.description,
    source := orNA lead.source,
    facebook := orNA lead.facebook,
    instagram := orNA lead.instagram,
    twitter := orNA lead.twitter,
    linkedin := orNA lead.linkedin,
    youtube := orNA lead.youtube }

/-- The loop of `clean_web_leads` from `web_crawler.py`. -/
def clean_web_leads_go : List WLeadDict → List Str → List CleanedWebLead
  | [], _ => []
  | lead :: rest, seen =>
    let website := pyStrip (lead.website.getD [])
    let name := pyStrip (lead.business_name.getD [])
    let key := webKey website name
    if key = [] ∨ key ∈ seen then clean_web_leads_go rest seen
    else
      let phone0 := lead.phone.getD []
      let phone :=
        if phone0 = [] then phone0 else pyStrip (phone0.filter isWebPhoneChar)
      cleanWebRecord lead website name phone
        :: clean_web_leads_go rest (key :: seen)

/-- `clean_web_leads` from `web_crawler.py`. -/
def clean_web_leads (leads : List WLeadDict) : List CleanedWebLead :=
  clean_web_leads_go leads []

/-- The identity of a cleaned web-crawler lead (website domain when one can
be extracted, otherwise the lowercased business name), recomputed from the
emitted record exactly as the dedup key is computed from the input. -/
def webIdentity (r : CleanedWebLead) : Str :=
  let d := pyLower (netlocOf r.website)
  if d ≠ [] then d else pyLower r.business_name

/-! ## Instagram lead extraction (`_extract_username`, `_parse_lead`,
`_merge_enrichment`, `_finalize_leads`) -/

/-- A raw result record `{url, title, snippet}` produced by the Result
Parser strategies. -/
structure RawResult where
  url : Str := []
  title : Str := []
  snippet : Str := []
deriving DecidableEq, Repr

/-- The reserved path segments rejected by `_extract_username`. -/
def IG_RESERVED : List Str :=
  [("p").data, ("explore").data, ("reel").data, ("reels").data,
   ("stories").data, ("tv").data, ("accounts").data, ("about").data,
   ("legal").data, ("developer").data, ("directory").data, ("terms").data,
   ("privacy").data, ("s").data, ("static").data, ("nametag").data,
   ("direct").data, ("lite").data, ("404").data, ("challenge").data]

/-- Character class `[\w.\-]`, the tail class of the username capture. -/
def isUserChar (c : Char) : Bool := isWordChar c ∨ c = '.' ∨ c = '-'

/-- Embedding of `re.search(r'instagram\.com/([\w][\w.\-]{0,29})', url)`:
the first occurrence of the literal `instagram.com/` followed by a word
character; the capture is that character plus up to 29 further `[\w.\-]`
characters (greedy). -/
def igUserScan : Str → Option Str
  | [] => none
  | c :: rest =>
    if (("instagram.com/").data).isPrefixOf (c :: rest) then
      match (c :: rest).drop ("instagram.com/").data.length with
      | d :: ds =>
        if isWordChar d then some (d :: (ds.takeWhile isUserChar).take 29)
        else igUserScan rest
      | [] => igUserScan rest
    else igUserScan rest

/-- `_extract_username` from `instagram_scraper.py`. -/
def extract_username (url : Str) : Str :=
  match igUserScan url with
  | none => []
  | some m =>
    let username := pyRStripSet ['.'] m
    if pyLower username ∈ IG_RESERVED then [] else username

/-- The display-name suffixes stripped by `_parse_lead`, in source order. -/
def IG_NAME_SUFFIXES : List Str :=
  [("Instagram photos and videos").data, ("Instagram photos").data,
   ("Instagram").data, ("on Instagram").data, ("is on Instagram").data]

/-- The separator characters stripped around a display name
(`" -·•|—"`). -/
def NAME_STRIP_CHARS : List Char := [' ', '-', '·', '•', '|', '—']

/-- The suffix-stripping loop in `_parse_lead`: each suffix in order is
dropped case-insensitively from the end, followed by a strip of the
separator characters. -/
def stripNameSuffixes (name0 : Str) : Str :=
  IG_NAME_SUFFIXES.foldl
    (fun name suf =>
      if (pyLower suf).isSuffixOf (pyLower name) then
        pyStripSet NAME_STRIP_CHARS (name.take (name.length - suf.length))
      else name)
    name0

/-- The character class excluded by `re.match(r'^([^(@•·|]+)', title)`. -/
def isNameStopChar (c : Char) : Bool :=
  c = '(' ∨ c = '@' ∨ c = '•' ∨ c = '·' ∨ c = '|'

/-- `_parse_lead` from `instagram_scraper.py`: parse one SERP result into
an `InstagramLead`, or `None` when no identity can be extracted.  The
unused `keywords` argument of the source is omitted. -/
def parse_lead (result : RawResult) (place : Str) : Option InstagramLead :=
  if ¬ hasSubstr (("instagram.com").data) result.url then none
  else
    let username := extract_username result.url
    if username = [] then none
    else
      let displayName :=
        if result.title ≠ [] then
          match result.title.takeWhile (fun c => ¬ isNameStopChar c) with
          | [] => []
          | g :: gs => stripNameSuffixes (pyStrip (g :: gs))
        else []
      let combined := result.title ++ [' '] ++ result.snippet
      let emails :=
        sortStrs (dedupStrs
          (((emailFindAll combined).filter
            (is_valid_email EMAIL_BLACKLIST_IG)).map pyLower))
      some
        { username := username,
          profile_url :=
            ("https://www.instagram.com/").data ++ username ++ ['/'],
          display_name := displayName,
          bio := if result.snippet ≠ [] then result.snippet.take 300 else [],
          email := if emails ≠ [] then joinSep (("; ").data) emails else [],
          phone := [], website := [], category := [], followers := [],
          location := place }

/-- `filter` over an explicitly fallible predicate. -/
def exFilter (p : α → Except Unit Bool) : List α → Except Unit (List α)
  | [] => .ok []
  | x :: xs =>
    match p x with
    | .error e => .error e
    | .ok b =>
      match exFilter p xs with
      | .error e => .error e
      | .ok rest => .ok (if b then x :: rest else rest)

theorem exFilter_eq_ok {p : α → Except Unit Bool} {q : α → Bool}
    (hpq : ∀ a, p a = .ok (q a)) :
    ∀ l : List α, exFilter p l = .ok (l.filter q)
  | [] => rfl
  | x :: xs => by
    rw [exFilter, hpq x, exFilter_eq_ok hpq xs, List.filter_cons]

/-- `_parse_lead` with the fallible subscript inside `_is_valid_email`
surfaced through the `Except` embedding. -/
def parse_lead_ex (result : RawResult) (place : Str) :
    Except Unit (Option InstagramLead) :=
  if ¬ hasSubstr (("instagram.com").data) result.url then .ok none
  else
    let username := extract_username result.url
    if username = [] then .ok none
    else
      let displayName :=
        if result.title ≠ [] then
          match result.title.takeWhile (fun c => ¬ isNameStopChar c) with
          | [] => []
          | g :: gs => stripNameSuffixes (pyStrip (g :: gs))
        else []
      let combined := result.title ++ [' '] ++ result.snippet
      match exFilter (is_valid_email_ex EMAIL_BLACKLIST_IG)
          (emailFindAll combined) with
      | .error e => .error e
      | .ok kept =>
        let emails := sortStrs (dedupStrs (kept.map pyLower))
        .ok (some
          { username := username,
            profile_url :=
              ("https://www.instagram.com/").data ++ username ++ ['/'],
            display_name := displayName,
            bio :=
              if result.snippet ≠ [] then result.snippet.take 300 else [],
            email := if emails ≠ [] then joinSep (("; ").data) emails else [],
            phone := [], website := [], category := [], followers := [],
            location := place })

theorem parse_lead_ex_eq (result : RawResult) (place : Str) :
    parse_lead_ex result place = .ok (parse_lead result place) := by
  unfold parse_lead_ex parse_lead
  split
  · rfl
  · dsimp only
    split
    · rfl
    · rw [exFilter_eq_ok (is_valid_email_ex_eq EMAIL_BLACKLIST_IG)]

/-- An enrichment dictionary as returned by `_enrich_single_profile`
(absent keys are `none`). -/
structure Enrichment where
  bio : Option Str := none
  email : Option Str := none
  phone : Option Str := none
  website : Option Str := none
  category : Option Str := none
  followers : Option Str := none
  display_name : Option Str := none
deriving DecidableEq, Repr

/-- Truthiness of `enrichment.get(key)`: present and non-empty. -/
def truthyO (v : Option Str) : Bool :=
  match v with
  | some s => s ≠ []
  | none => false

/-- `_merge_enrichment` from `instagram_scraper.py`: sequential conditional
field updates on the dict form of a lead. -/
def merge_enrichment (lead : ILeadDict) (e : Enrichment) : ILeadDict :=
  let l1 := if truthyO e.bio then { lead with bio := e.bio } else lead
  let l2 :=
    if truthyO e.email ∧ (l1.email.getD [] = [] ∨ l1.email.getD [] = NA)
    then { l1 with email := e.email } else l1
  let l3 := if truthyO e.phone then { l2 with phone := e.phone } else l2
  let l4 := if truthyO e.website then { l3 with website := e.website } else l3
  let l5 :=
    if truthyO e.category then { l4 with category := e.category } else l4
  let l6 :=
    if truthyO e.followers then { l5 with followers := e.followers } else l5
  if truthyO e.display_name ∧
     (l6.display_name.getD [] = [] ∨ l6.display_name.getD [] = NA)
  then { l6 with display_name := e.display_name } else l6

/-- A dict field holds a real value: present, non-empty and not the
`"N/A"` marker. -/
def populatedO (v : Option Str) : Bool :=
  !(v.getD [] == []) && !(v.getD [] == NA)

/-- An enrichment value, when present, is a non-empty string (this is
what `_extract_enrichment_data` guarantees: it only inserts truthy
strings). -/
def enrFieldNonEmpty : Option Str → Bool
  | some s => !(s == [])
  | none => true

/-- An enrichment value, when present, is non-empty and distinct from
the `"N/A"` marker. -/
def enrFieldReal : Option Str → Bool
  | some s => !(s == []) && !(s == NA)
  | none => true

/-- All values of an enrichment dict are non-empty strings. -/
def enrValuesNonEmpty (e : Enrichment) : Bool :=
  enrFieldNonEmpty e.bio && enrFieldNonEmpty e.email &&
  enrFieldNonEmpty e.phone && enrFieldNonEmpty e.website &&
  enrFieldNonEmpty e.category && enrFieldNonEmpty e.followers &&
  enrFieldNonEmpty e.display_name

/-- All values of an enrichment dict are non-empty and distinct from
`"N/A"`. -/
def enrValuesReal (e : Enrichment) : Bool :=
  enrFieldReal e.bio && enrFieldReal e.email &&
  enrFieldReal e.phone && enrFieldReal e.website &&
  enrFieldReal e.category && enrFieldReal e.followers &&
  enrFieldReal e.display_name

/-- The parse/dedup loop of `_finalize_leads` (instagram_scraper.py):
walk the raw results, skip empty or already-processed usernames, parse the
rest, append the lead dicts.  `stopLeft` is the number of iterations whose
`if self._should_stop: break` check still reads false. -/
def finalizeParseGo (place : Str) :
    List RawResult → List Str → Nat → List ILeadDict
  | _, _, 0 => []
  | [], _, _ => []
  | r :: rest, processed, k + 1 =>
    let username := extract_username r.url
    if username = [] ∨ username ∈ processed then
      finalizeParseGo place rest processed k
    else
      match parse_lead r place with
      | some lead =>
        asdictIG lead :: finalizeParseGo place rest (username :: processed) k
      | none => finalizeParseGo place rest (username :: processed) k

/-- The enrichment loop of `_enrich_profiles` applied to the parsed leads,
with the network abstracted: `enr i` is the enrichment dict obtained for
the `i`-th lead, `none` when the lead was skipped, the stop flag was
observed first, the index is past `max_profiles = 60`, or
`_enrich_single_profile` returned no data. -/
def enrichGo (enr : Nat → Option Enrichment) :
    Nat → List ILeadDict → List ILeadDict
  | _, [] => []
  | i, l :: rest =>
    (if i < 60 then
      match enr i with
      | some e => merge_enrichment l e
      | none => l
    else l) :: enrichGo enr (i + 1) rest

/-- `_finalize_leads` from `instagram_scraper.py`: parse and deduplicate
the raw results, then run best-effort enrichment over the lead list
(progress reporting and stats omitted). -/
def finalize_leads (allResults : List RawResult) (place : Str)
    (stopLeft : Nat) (enr : Nat → Option Enrichment) : List ILeadDict :=
  enrichGo enr 0 (finalizeParseGo place allResults [] stopLeft)

/-! ## LinkedIn profile extraction (`_parse_profile_from_serp`) -/

/-- Embedding of Python `s.split(sep)` for a non-empty separator. -/
def pySplitAux (sep : Str) : Str → List Str
  | [] => [[]]
  | c :: rest =>
    if sep ≠ [] ∧ sep.isPrefixOf (c :: rest) then
      [] :: pySplitAux sep (rest.drop (sep.length - 1))
    else
      match pySplitAux sep rest with
      | [] => [[c]]
      | h :: t => (c :: h) :: t
termination_by s => s.length
decreasing_by
  · simp only [List.length_drop, List.length_cons]
    omega
  · simp only [List.length_cons]
    omega

/-- Embedding of Python `s.split(sep)` (the sources never pass an empty
separator, which Python rejects). -/
def pySplit (sep : Str) (s : Str) : List Str :=
  if sep = [] then [s] else pySplitAux sep s

/-- Head test of the match for `\s*[\|–—]\s*LinkedIn` at one position. -/
def liSepHere (s : Str) : Bool :=
  match s.dropWhile isSpaceChar with
  | c :: rest =>
    if c = '|' ∨ c = '–' ∨ c = '—' then
      (("LinkedIn").data).isPrefixOf (rest.dropWhile isSpaceChar)
    else false
  | [] => false

/-- Embedding of `re.sub(r'\s*[\|–—]\s*LinkedIn.*$', '', title)`: truncate
at the leftmost position where the separator-plus-`LinkedIn` pattern
matches (its `.*$` tail then consumes the rest of the line). -/
def cutLinkedInSuffix : Str → Str
  | [] => []
  | c :: rest =>
    if liSepHere (c :: rest) then [] else c :: cutLinkedInSuffix rest

/-- Case-insensitive literal match at the head: if the lowercased input
starts with `lit` (itself lowercase), return the remainder. -/
def matchCI (lit : Str) (s : Str) : Option Str :=
  if lit.isPrefixOf (pyLower s) then some (s.drop lit.length) else none

/-- `\s+`: at least one whitespace character, consumed greedily. -/
def matchWs1 : Str → Option Str
  | [] => none
  | c :: rest =>
    if isSpaceChar c then some (rest.dropWhile isSpaceChar) else none

/-- The keyword alternatives `located?\s+in | based\s+in | from | 📍` of the
location regex in `_parse_profile_from_serp` (case-insensitive), matched at
the head of `s`; returns the remainder after the keyword. -/
def locKeyAt (s : Str) : Option Str :=
  match matchCI (("locate").data) s with
  | some r1 =>
    let r2 := match matchCI (("d").data) r1 with | some r => r | none => r1
    (matchWs1 r2).bind (matchCI (("in").data))
  | none =>
    match matchCI (("based").data) s with
    | some r1 => (matchWs1 r1).bind (matchCI (("in").data))
    | none =>
      match matchCI (("from").data) s with
      | some r => some r
      | none => matchCI (("📍").data) s

/-- Character class `[^.·\-\n]`. -/
def isLocChar (c : Char) : Bool :=
  ¬ (c = '.' ∨ c = '·' ∨ c = '-' ∨ c = '\n')

/-- One attempted match of the location regex
`(?:located?\s+in|based\s+in|from|📍)\s+([A-Z][^.·\-\n]+)` (with `re.I`,
so `[A-Z]` matches any ASCII letter) at the head of `s`; returns group 1. -/
def locMatchAt (s : Str) : Option Str := do
  let r1 ← locKeyAt s
  let r2 ← matchWs1 r1
  match r2 with
  | c :: rest =>
    if c.isAlpha then
      match rest.takeWhile isLocChar with
      | [] => none
      | g :: gs => some (c :: g :: gs)
    else none
  | [] => none

/-- Leftmost search for the location regex. -/
def locSearch : Str → Option Str
  | [] => none
  | c :: rest =>
    match locMatchAt (c :: rest) with
    | some g => some g
    | none => locSearch rest

/-- Character class `[^.·\-\n,]`. -/
def isCompChar (c : Char) : Bool :=
  ¬ (c = '.' ∨ c = '·' ∨ c = '-' ∨ c = '\n' ∨ c = ',')

/-- One attempted match of the company regex
`(?:\bat\b|@)\s+([A-Z][^.·\-\n,]{2,60})` (with `re.I`) at the head of `s`;
`prev` carries the preceding character for the word boundary before `at`. -/
def compMatchAt (prev : Option Char) (s : Str) : Option Str := do
  let bprev : Bool := match prev with | some p => ¬ isWordChar p | none => true
  let r1 ←
    match matchCI (("at").data) s with
    | some r =>
      if bprev && (match r with | c :: _ => ¬ isWordChar c | [] => true) then
        some r
      else matchCI (("@").data) s
    | none => matchCI (("@").data) s
  let r2 ← matchWs1 r1
  match r2 with
  | c :: rest =>
    if c.isAlpha then
      let run := rest.takeWhile isCompChar
      if run.length < 2 then none else some (c :: run.take 60)
    else none
  | [] => none

/-- Leftmost search for the company regex. -/
def compSearch : Option Char → Str → Option Str
  | _, [] => none
  | prev, c :: rest =>
    match compMatchAt prev (c :: rest) with
    | some g => some g
    | none => compSearch (some c) rest

/-- Embedding of Python `str.replace(old, new)` for single characters. -/
def replaceChar (old new : Char) (s : Str) : Str :=
  s.map (fun c => if c = old then new else c)

/-- Worker for `pyTitle`, tracking whether the previous character was a
letter. -/
def pyTitleGo : Bool → Str → Str
  | _, [] => []
  | prevAlpha, c :: rest =>
    (if c.isAlpha then (if prevAlpha then lowerChar c else upperChar c)
     else c) :: pyTitleGo c.isAlpha rest

/-- Embedding of Python `str.title()` restricted to ASCII letters. -/
def pyTitle (s : Str) : Str := pyTitleGo false s

/-- Worker for `pySplitWs` with explicit fuel. -/
def pySplitWsAux : Nat → Str → List Str
  | 0, _ => []
  | fuel + 1, s =>
    match s.dropWhile isSpaceChar with
    | [] => []
    | c :: rest =>
      (c :: rest.takeWhile (fun d => ¬ isSpaceChar d))
        :: pySplitWsAux fuel
          (rest.drop (rest.takeWhile (fun d => ¬ isSpaceChar d)).length)

/-- Embedding of Python `str.split()` with no argument: split on
whitespace runs, discarding empty fields. -/
def pySplitWs (s : Str) : List Str := pySplitWsAux s.length s

/-- The `LinkedInProfile` dataclass from `linkedin_scraper.py`. -/
structure LinkedInProfile where
  name : Str := []
  title : Str := []
  company : Str := []
  location : Str := []
  profile_url : Str := []
  linkedin_username : Str := []
  snippet : Str := []
deriving DecidableEq, Repr

/-- The unguarded `snippet.split("·")[0].split("…")[0].strip()` from
`_parse_profile_from_serp`, with both subscripts explicitly fallible. -/
def firstLineOf (snippet : Str) : Except Unit Str :=
  match pyIndex (splitChar '·' snippet) 0 with
  | .error e => .error e
  | .ok fl0 =>
    match pyIndex (splitChar '…' fl0) 0 with
    | .error e => .error e
    | .ok fl1 => .ok (pyStrip fl1)

theorem firstLineOf_eq (snippet : Str) :
    firstLineOf snippet =
      .ok (pyStrip
        ((splitChar '…' ((splitChar '·' snippet).getD 0 [])).getD 0 [])) := by
  unfold firstLineOf
  rw [pyIndex_zero_of_ne_nil (splitChar_ne_nil _ _)]
  dsimp only
  rw [pyIndex_zero_of_ne_nil (splitChar_ne_nil _ _)]

/-- The snippet-based title fallback of `_parse_profile_from_serp`
(`if not profile.title: first_line = ...`), fallible form. -/
def titleStepEx (snippet title1 : Str) : Except Unit Str :=
  if snippet ≠ [] ∧ title1 = [] then
    match firstLineOf snippet with
    | .error e => .error e
    | .ok firstLine =>
      .ok (if firstLine ≠ [] ∧ firstLine.length < 120 then firstLine
           else title1)
  else .ok title1

/-- The value computed by `titleStepEx`, which never raises. -/
def titleStepVal (snippet title1 : Str) : Str :=
  if snippet ≠ [] ∧ title1 = [] then
    let firstLine := pyStrip
      ((splitChar '…' ((splitChar '·' snippet).getD 0 [])).getD 0 [])
    if firstLine ≠ [] ∧ firstLine.length < 120 then firstLine else title1
  else title1

theorem titleStepEx_eq (snippet title1 : Str) :
    titleStepEx snippet title1 = .ok (titleStepVal snippet title1) := by
  unfold titleStepEx titleStepVal
  split
  · rw [firstLineOf_eq]
  · rfl

/-- `_parse_profile_from_serp` from `linkedin_scraper.py`, with every
unguarded list subscript made explicitly fallible through `pyIndex`.
Returns `none` for non-profile URLs and when no name can be derived. -/
def parse_profile_ex (r : RawResult) : Except Unit (Option LinkedInProfile) :=
  if ¬ hasSubstr (("linkedin.com/in/").data) r.url then .ok none
  else
    match pyIndex (splitChar '?' r.url) 0 with
    | .error e => .error e
    | .ok profileUrl =>
      let username := (searchLinkedinUser r.url).getD []
      let parts :=
        if r.title ≠ [] then
          ((pySplit ((" - ").data) (pyStrip (cutLinkedInSuffix r.title))).map
            pyStrip).filter (· ≠ [])
        else []
      let name1 := match parts with | p0 :: _ => p0 | [] => []
      let title1 := match parts with | _ :: p1 :: _ => p1 | _ => []
      let company1 := match parts with | _ :: _ :: p2 :: _ => p2 | _ => []
      let location1 :=
        if r.snippet ≠ [] then
          match locSearch r.snippet with
          | some g => (pyStrip g).take 80
          | none => []
        else []
      match titleStepEx r.snippet title1 with
      | .error e => .error e
      | .ok title2 =>
        let company2 :=
          if r.snippet ≠ [] ∧ company1 = [] then
            match compSearch none r.snippet with
            | some g => pyStrip g
            | none => []
          else company1
        let name2 :=
          if name1 = [] ∧ username ≠ [] then
            let nm := pyTitle (replaceChar '-' ' ' username)
            if 2 ≤ (pySplitWs nm).length then nm else name1
          else name1
        .ok (if name2 ≠ [] then
              some { name := name2, title := title2, company := company2,
                     location := location1, profile_url := profileUrl,
                     linkedin_username := username, snippet := r.snippet }
             else none)

theorem parse_profile_ex_isOk (r : RawResult) :
    (parse_profile_ex r).isOk = true := by
  unfold parse_profile_ex
  split
  · rfl
  · rw [pyIndex_zero_of_ne_nil (splitChar_ne_nil _ _)]
    dsimp only
    rw [titleStepEx_eq]
    rfl

/-! ## Social-profile URL patterns (`SOCIAL_PATTERNS`) and the
`_scrape_website` collection loops -/

/-- A social-platform URL pattern.  Every entry of `SOCIAL_PATTERNS` (in
`scraper.py` and `web_crawler.py`) has the shape
`https?://(?:www\.)?ALTS[\w.\-]+` with `re.I`, where `ALTS` is a list of
host/path alternatives tried in order. -/
structure SocialPat where
  alts : List Str
deriving DecidableEq, Repr

def FACEBOOK_PAT : SocialPat := ⟨[("facebook.com/").data]⟩

def INSTAGRAM_PAT : SocialPat := ⟨[("instagram.com/").data]⟩

def TWITTER_PAT : SocialPat := ⟨[("twitter.com/").data, ("x.com/").data]⟩

def LINKEDIN_PAT : SocialPat :=
  ⟨[("linkedin.com/in/").data, ("linkedin.com/company/").data]⟩

def YOUTUBE_PAT : SocialPat :=
  ⟨[("youtube.com/@").data, ("youtube.com/channel/").data,
    ("youtube.com/c/").data]⟩

def TIKTOK_PAT : SocialPat := ⟨[("tiktok.com/@").data]⟩

def PINTEREST_PAT : SocialPat := ⟨[("pinterest.com/").data]⟩

/-- `SOCIAL_PATTERNS` from `scraper.py`; `web_crawler.py` uses the first
five entries. -/
def SOCIAL_PATTERNS : List SocialPat :=
  [FACEBOOK_PAT, INSTAGRAM_PAT, TWITTER_PAT, LINKEDIN_PAT, YOUTUBE_PAT,
   TIKTOK_PAT, PINTEREST_PAT]

/-- The alternation step of a social pattern at the head of `cur`: try the
alternatives in order; one succeeds when it matches case-insensitively and
is followed by at least one `[\w.\-]` character (otherwise the regex
engine backtracks into the next alternative).  Returns the original-case
alternative text and the greedy character run. -/
def socialAltParse (alts : List Str) (cur : Str) : Option (Str × Str) :=
  match alts with
  | [] => none
  | a :: rest =>
    match matchCI a cur with
    | some r =>
      match r.takeWhile isUserChar with
      | [] => socialAltParse rest cur
      | g :: gs => some (cur.take a.length, g :: gs)
    | none => socialAltParse rest cur

/-- One attempted match of a social pattern anchored at the head of `s`
(embedding `pattern.match(href)`): scheme (`http://` or `https://`, the
greedy-`s`-with-backtracking of `https?://` is equivalent to trying
`https://` first), optional `www.`, then the host alternation.  Returns
`m.group(0)`, the matched text in its original case. -/
def socialMatchAt (p : SocialPat) (s : Str) : Option Str :=
  let step1 : Option (Str × Str) :=
    match matchCI (("https://").data) s with
    | some r => some (s.take ("https://").data.length, r)
    | none =>
      match matchCI (("http://").data) s with
      | some r => some (s.take ("http://").data.length, r)
      | none => none
  match step1 with
  | none => none
  | some (scheme, r1) =>
    let step2 : Str × Str :=
      match matchCI (("www.").data) r1 with
      | some r => (r1.take ("www.").data.length, r)
      | none => ([], r1)
    match socialAltParse p.alts step2.2 with
    | none => none
    | some (ap, run) => some (scheme ++ step2.1 ++ ap ++ run)

/-- Leftmost search for a social pattern (embedding
`pattern.search(text)`). -/
def socialSearch (p : SocialPat) : Str → Option Str
  | [] => none
  | c :: rest =>
    match socialMatchAt p (c :: rest) with
    | some m => some m
    | none => socialSearch p rest

/-- `v` matches the social-pattern shape
`https?://(?:www\.)?ALT[\w.\-]+`, case-insensitively and anchored at both
ends. -/
def MatchesSocial (p : SocialPat) (v : Str) : Prop :=
  ∃ scheme www alt run,
    v = scheme ++ www ++ alt ++ run ∧
    (pyLower scheme = ("http://").data ∨
     pyLower scheme = ("https://").data) ∧
    (www = [] ∨ pyLower www = ("www.").data) ∧
    pyLower alt ∈ p.alts ∧
    run ≠ [] ∧ run.all isUserChar = true

/-- The first `pattern.match(href)` hit over a page's anchors. -/
def socialFromHrefs (p : SocialPat) (hrefs : List Str) : Str :=
  match hrefs.findSome? (fun h => socialMatchAt p h) with
  | some m => m
  | none => []

/-- The `pattern.search(text)` hit over the raw page source. -/
def socialFromText (p : SocialPat) (text : Str) : Str :=
  match socialSearch p text with
  | some m => m
  | none => []

/-- One page of the social-link extraction in `_scrape_website`: while the
platform slot is empty, the first `pattern.match(href)` over the page's
anchors fills it, then `pattern.search(text)` over the raw page source. -/
def updateSocial (p : SocialPat) (cur : Str) (hrefs : List Str)
    (text : Str) : Str :=
  let afterHrefs := if cur = [] then socialFromHrefs p hrefs else cur
  if afterHrefs = [] then socialFromText p text
  else afterHrefs

/-- The social slot for one platform accumulated over the fetched pages
(`found_socials[platform]` at the end of `_scrape_website`). -/
def collectSocial (p : SocialPat) (pages : List (List Str × Str)) : Str :=
  pages.foldl (fun cur pg => updateSocial p cur pg.1 pg.2) []

/-! ## The email accumulation of `_scrape_website` -/

/-- Removal of every occurrence of `pat`, embedding
`s.replace(pat, "")`. -/
def removeAllSub (pat : Str) : Str → Str
  | [] => []
  | c :: rest =>
    if pat ≠ [] ∧ pat.isPrefixOf (c :: rest) then
      removeAllSub pat (rest.drop (pat.length - 1))
    else c :: removeAllSub pat rest
termination_by s => s.length
decreasing_by
  · simp only [List.length_drop, List.length_cons]
    omega
  · simp only [List.length_cons]
    omega

/-- `href.replace("mailto:", "").split("?")[0].strip()`. -/
def mailtoEmail (href : Str) : Str :=
  pyStrip ((removeAllSub (("mailto:").data) href).takeWhile (· ≠ '?'))

/-- One page's email candidates in `_scrape_website`: the `mailto:`
anchors and the `EMAIL_RE` matches over the page text. -/
def pageEmailCands (hrefs : List Str) (text : Str) : List Str :=
  ((hrefs.filter (fun h => (("mailto:").data).isPrefixOf h)).map mailtoEmail)
    ++ emailFindAll text

/-- The candidate filter and set accumulation of `_scrape_website`: keep
the candidates accepted by `_is_valid_email`, lowercased, as a set; the
final `"; ".join(sorted(all_emails))` sorts them. -/
def collectValidEmails (bl : List Str) (cands : List Str) : List Str :=
  sortStrs (dedupStrs ((cands.filter (is_valid_email bl)).map pyLower))

/-- The sorted set of accepted emails over all fetched pages (pages that
returned non-200 or raised are simply absent from `pages`; the early exit
only truncates the page list). -/
def websiteEmails (bl : List Str) (pages : List (List Str × Str)) :
    List Str :=
  collectValidEmails bl (pages.flatMap (fun pg => pageEmailCands pg.1 pg.2))

/-! ## Job controller model (`app.py`: `ScrapingJob`, `run_scraping_job`,
`stop_scrape`) -/

/-- The job lifecycle states of `JobState.status`. -/
inductive JobStatus where
  | running
  | completed
  | failed
  | stopped
deriving DecidableEq, Repr

/-- The observable part of a Google-Maps `ScrapingJob` used by the
claims: status, progress and the cleaned lead list (a job is created
`running` with progress `0` and no leads). -/
structure MapsJobState where
  status : JobStatus := .running
  progress : Nat := 0
  leads : List CleanedGmapsLead := []
deriving DecidableEq, Repr

/-- The admission loop of `GoogleMapsScraper.scrape` at per-admission
granularity: `planned` is the sequence of leads the run would admit in
order, and the second argument the number of admissions completed before
the shared stop flag is first observed at one of the `if
self._should_stop: break` checks (once set, the flag stays set, so every
later check observes it too). -/
def scrapeCollect : List BusinessLead → Nat → List BusinessLead
  | _, 0 => []
  | [], _ => []
  | l :: rest, k + 1 => l :: scrapeCollect rest k

/-- What `GoogleMapsScraper.scrape` returns — and leaves in
`_partial_leads` — when the stop flag is observed after `stopAt`
admissions: the dict forms of the leads admitted so far (the phase-2
website scan is skipped when the flag is set, and `_partial_leads` is set
to the returned list just before returning). -/
def gmapsScrapeReturn (planned : List BusinessLead) (stopAt : Nat) :
    List BLeadDict :=
  (scrapeCollect planned stopAt).map asdictB

/-- `stop_scrape` from `app.py` (`/api/stop/<job_id>`): signal the
scraper, grab the current partial leads, clean them onto the job when
non-empty, and mark the job stopped. -/
def stop_scrape (job : MapsJobState) (snapshot : List BLeadDict) :
    MapsJobState :=
  let job :=
    if snapshot ≠ [] then { job with leads := clean_leads snapshot }
    else job
  { job with status := .stopped }

/-- The tail of `run_scraping_job` from `app.py` once `scraper.scrape` has
returned `raw`: clean and store the leads; when the job was marked
`stopped`, re-clean the scraper's partial snapshot (equal to `raw` at that
point) and return; otherwise complete the job at progress 100. -/
def run_scraping_job_tail (job : MapsJobState) (raw : List BLeadDict) :
    MapsJobState :=
  let job := { job with leads := clean_leads raw }
  if job.status = .stopped then
    if raw ≠ [] then { job with leads := clean_leads raw } else job
  else
    { job with status := .completed, progress := 100 }

/-- A Google-Maps job on which `stop()` arrives mid-run: the HTTP stop
handler fires after `stopCallAt` admissions, the scraper observes the flag
at the check after `stopAt ≥ stopCallAt` admissions, and the runner tail
executes once `scrape` returns. -/
def runJobWithStop (planned : List BusinessLead)
    (stopCallAt stopAt : Nat) : MapsJobState :=
  let afterStopCall :=
    stop_scrape {} (gmapsScrapeReturn planned stopCallAt)
  run_scraping_job_tail afterStopCall (gmapsScrapeReturn planned stopAt)

theorem scrapeCollect_eq_take :
    ∀ (planned : List BusinessLead) (k : Nat),
      scrapeCollect planned k = planned.take k
  | _, 0 => by simp [scrapeCollect]
  | [], _ + 1 => by simp [scrapeCollect]
  | l :: rest, k + 1 => by
    rw [scrapeCollect, scrapeCollect_eq_take rest k, List.take_succ_cons]

/-! ## Result-parser fallback chain -/

/-- The ordered fallback chain of the Google SERP parsers
(`LinkedInScraper._google_search`, strategies 1-3): strategy N runs only
when all earlier strategies returned zero records for the page.  The
arguments are the would-be outcomes of the three strategies on the
current page. -/
def fallbackChain (s1 s2 s3 : List RawResult) : List RawResult :=
  if s1 ≠ [] then s1 else if s2 ≠ [] then s2 else s3

/-- Python `a or b` on result lists (an empty list is the only falsy
value), the idiom `divg or broad or regex` used by
`InstagramScraper._google_search`. -/
def pyOrList [DecidableEq α] (a b : List α) : List α :=
  if a ≠ [] then a else b

/-- The instrumented chain: the page result together with the list of
strategy indices that were invoked, in order. -/
def fallbackChainTraced (s1 s2 s3 : List RawResult) :
    List RawResult × List Nat :=
  if s1 ≠ [] then (s1, [1])
  else if s2 ≠ [] then (s2, [1, 2])
  else (s3, [1, 2, 3])

/-! ## Bot-challenge backoff -/

/-- The outcome of one captcha-handling block: the backoff delays slept
(in order), the number of retry re-fetches, and whether the driver ended
still blocked (in which case it breaks out of the page loop, abandoning
the remaining pages of the current query only). -/
structure RetryOutcome where
  waits : List Nat
  fetches : Nat
  blocked : Bool
deriving DecidableEq, Repr

/-- The Instagram Google driver backoff delay for a given attempt:
`wait = (15 + attempt * 15) + random.uniform(5, 15)`; the jitter draw is a
parameter. -/
def igWait (attempt : Nat) (jitter : Nat) : Nat := 15 + attempt * 15 + jitter

/-- The `for attempt in range(3)` retry loop of
`InstagramScraper._google_search` once a captcha is detected: sleep the
growing backoff, re-fetch, re-check; the `for`-`else` marks the query
blocked when all attempts still see the challenge.  `challenge i` is the
challenge status of the `i`-th fetch of this page (`0` = initial). -/
def igRetry (challenge : Nat → Bool) (jitter : Nat → Nat) :
    Nat → Nat → RetryOutcome
  | _, 0 => ⟨[], 0, true⟩
  | attempt, fuel + 1 =>
    let w := igWait attempt (jitter attempt)
    if challenge (attempt + 1) then
      let rest := igRetry challenge jitter (attempt + 1) fuel
      ⟨w :: rest.waits, rest.fetches + 1, rest.blocked⟩
    else ⟨[w], 1, false⟩

/-- The captcha-handling block of `InstagramScraper._google_search`
(instagram_scraper.py lines 409-420). -/
def igCaptchaBackoff (challenge : Nat → Bool) (jitter : Nat → Nat) :
    RetryOutcome :=
  if challenge 0 then igRetry challenge jitter 0 3 else ⟨[], 0, false⟩

/-- The LinkedIn Google driver backoff delay:
`time.sleep(10 + random.uniform(5, 10))`. -/
def liWait (jitter : Nat) : Nat := 10 + jitter

/-- The captcha-handling block of `LinkedInScraper._google_search`
(linkedin_scraper.py lines 242-249): one backoff sleep and one re-fetch;
if the challenge is still present the query is abandoned (`break`). -/
def liCaptchaBackoff (challenge : Nat → Bool) (jitter : Nat) :
    RetryOutcome :=
  if challenge 0 then ⟨[liWait jitter], 1, challenge 1⟩ else ⟨[], 0, false⟩

/-- The captcha-handling block of `WebCrawlerScraper._google_search`
(web_crawler.py lines 318-325): also a single backoff and re-fetch, with
delay `15 + random.uniform(5, 15)`. -/
def webCaptchaBackoff (challenge : Nat → Bool) (jitter : Nat) :
    RetryOutcome :=
  if challenge 0 then ⟨[15 + jitter], 1, challenge 1⟩ else ⟨[], 0, false⟩

/-- The environment of one query run by
`InstagramScraper._google_search`: page results, per-page/per-fetch
challenge status, and the jitter draws. -/
structure QueryEnv where
  numPages : Nat
  pageResults : Nat → List RawResult
  challenge : Nat → Nat → Bool
  jitter : Nat → Nat

/-- The page loop of `InstagramScraper._google_search`: a blocked captcha
block breaks, abandoning the remaining pages of this query only
(pagination-end detection is absorbed into `numPages`). -/
def igSearchPages (q : QueryEnv) : Nat → Nat → List RawResult
  | _, 0 => []
  | page, rem + 1 =>
    let out := igCaptchaBackoff (q.challenge page) q.jitter
    if out.blocked then []
    else q.pageResults page ++ igSearchPages q (page + 1) rem

/-- One full query of the Instagram Google driver. -/
def igSearchQuery (q : QueryEnv) : List RawResult :=
  igSearchPages q 0 q.numPages

/-- The query loop of `InstagramScraper.scrape` phase 2: every query runs
regardless of earlier queries being abandoned. -/
def igSearchAll (qs : List QueryEnv) : List (List RawResult) :=
  qs.map igSearchQuery

/-! ## Progress reporting model -/

/-- `ScrapingJob.update_progress` from `app.py`: the percentage is stored
only when it is not the `-1` "message only" sentinel. -/
def update_progress (progress : Nat) (pct : Int) : Nat :=
  if 0 ≤ pct then pct.toNat else progress

/-- The successive values of `job.progress` — starting from the `0` the
job is created with — as the reported percentages are applied. -/
def progressTrace (reports : List Int) : List Nat :=
  reports.scanl update_progress 0

/-- The percentages reported by a `GoogleMapsScraper.scrape` run in which
every query loads no result listings, in source order: `2` ("Initializing
browser..."), then per query `qi`: `max(3, int(qi / total * 80))` (the
area header), `5` (`_search_maps`), `15` (`_scroll_results` entry; the
feed panel is absent so no further scroll reports), `35` and `40`
(`_get_listing_links`), `base_pct + 2` ("No new listings, moving on...");
finally `100` ("Scraping complete!"). -/
def gmapsNoListingReports (totalQueries : Nat) : List Int :=
  2 :: ((List.range totalQueries).flatMap (fun qi =>
    let base : Int := ((qi * 80) / totalQueries : Nat)
    [max 3 base, 5, 15, 35, 40, base + 2])) ++ [100]

/-! ## Stop-flag reset on scrape entry -/

/-- The mutable state of a `GoogleMapsScraper` relevant to the stop
protocol. -/
structure GmapsScraperState where
  headless : Bool
  should_stop : Bool
  partLeads : List BLeadDict
deriving DecidableEq, Repr

/-- `GoogleMapsScraper.stop`. -/
def gmapsStop (s : GmapsScraperState) : GmapsScraperState :=
  { s with should_stop := true }

/-- The entry assignments of `GoogleMapsScraper.scrape`
(`self._should_stop = False; self._partial_leads = []`). -/
def gmapsScrapeEntry (s : GmapsScraperState) : GmapsScraperState :=
  { s with should_stop := false, partLeads := [] }

/-- The mutable state of an `InstagramScraper` relevant to the stop
protocol. -/
structure IgScraperState where
  headless : Bool
  should_stop : Bool
  partLeads : List ILeadDict
deriving DecidableEq, Repr

/-- `InstagramScraper.stop`. -/
def igStop (s : IgScraperState) : IgScraperState :=
  { s with should_stop := true }

/-- The entry assignments of `InstagramScraper.scrape`
(`self._should_stop = False; self._partial_leads = []`). -/
def igScrapeEntry (s : IgScraperState) : IgScraperState :=
  { s with should_stop := false, partLeads := [] }

/-- The mutable state of a `LinkedInScraper` relevant to the stop
protocol (its `leads` list is a local of `scrape`, not instance state). -/
structure LiScraperState where
  headless : Bool
  should_stop : Bool
deriving DecidableEq, Repr

/-- `LinkedInScraper.stop`. -/
def liStop (s : LiScraperState) : LiScraperState :=
  { s with should_stop := true }

/-- The entry assignment of `LinkedInScraper.scrape`
(`self._should_stop = False`). -/
def liScrapeEntry (s : LiScraperState) : LiScraperState :=
  { s with should_stop := false }

/-- The mutable state of a `WebCrawlerScraper` relevant to the stop
protocol. -/
structure WebScraperState where
  headless : Bool
  should_stop : Bool
deriving DecidableEq, Repr

/-- `WebCrawlerScraper.stop`. -/
def webStop (s : WebScraperState) : WebScraperState :=
  { s with should_stop := true }

/-- The entry assignment of `WebCrawlerScraper.scrape`
(`self._should_stop = False`). -/
def webScrapeEntry (s : WebScraperState) : WebScraperState :=
  { s with should_stop := false }

/-! ## Dedup and field lemmas for the cleaning functions -/

theorem NA_ne_nil : NA ≠ [] := by decide

theorem orElseStr_NA_ne_nil (v : Str) : orElseStr v NA ≠ [] := by
  unfold orElseStr
  split
  · exact NA_ne_nil
  · assumption

theorem orNA_ne_nil (v : Option Str) : orNA v ≠ [] := orElseStr_NA_ne_nil _

theorem orNA_of_absent (v : Option Str) (h : v = none ∨ v = some []) :
    orNA v = NA := by
  rcases h with h | h <;> rw [h] <;> rfl

theorem clean_leads_go_spec :
    ∀ (leads : List BLeadDict) (seen : List Str),
      ((clean_leads_go leads seen).map (·.business_name)).Nodup ∧
      ∀ r ∈ clean_leads_go leads seen, r.business_name ∉ seen
  | [], seen => by simp [clean_leads_go]
  | lead :: rest, seen => by
    simp only [clean_leads_go]
    split
    · exact clean_leads_go_spec rest seen
    · rename_i hguard
      push_neg at hguard
      obtain ⟨hne, _, hnotin⟩ := hguard
      obtain ⟨ih1, ih2⟩ := clean_leads_go_spec rest
        (pyStrip (lead.business_name.getD []) :: seen)
      refine ⟨?_, ?_⟩
      · rw [List.map_cons, List.nodup_cons]
        refine ⟨fun hmem => ?_, ih1⟩
        obtain ⟨r, hr, hkey⟩ := List.mem_map.mp hmem
        exact ih2 r hr (hkey ▸ List.mem_cons_self _ _)
      · intro r hr
        rcases List.mem_cons.mp hr with hr | hr
        · rw [hr]; exact hnotin
        · exact fun hc => ih2 r hr (List.mem_cons_of_mem _ hc)

theorem clean_instagram_go_spec :
    ∀ (leads : List ILeadDict) (seen : List Str),
      ((clean_instagram_leads_go leads seen).map (·.username)).Nodup ∧
      ∀ r ∈ clean_instagram_leads_go leads seen, r.username ∉ seen
  | [], seen => by simp [clean_instagram_leads_go]
  | lead :: rest, seen => by
    simp only [clean_instagram_leads_go]
    split
    · exact clean_instagram_go_spec rest seen
    · rename_i hguard
      push_neg at hguard
      obtain ⟨hne, hnotin⟩ := hguard
      obtain ⟨ih1, ih2⟩ := clean_instagram_go_spec rest
        (pyStrip (lead.username.getD []) :: seen)
      refine ⟨?_, ?_⟩
      · rw [List.map_cons, List.nodup_cons]
        refine ⟨fun hmem => ?_, ih1⟩
        obtain ⟨r, hr, hkey⟩ := List.mem_map.mp hmem
        exact ih2 r hr (hkey ▸ List.mem_cons_self _ _)
      · intro r hr
        rcases List.mem_cons.mp hr with hr | hr
        · rw [hr]; exact hnotin
        · exact fun hc => ih2 r hr (List.mem_cons_of_mem _ hc)

theorem clean_li_profiles_go_spec :
    ∀ (leads : List LProfileDict) (seen : List Str),
      (∀ x ∈ leads, x.profile_url.getD [] ≠ []) →
      ((clean_linkedin_profiles_go leads seen).map (·.profile_url)).Nodup ∧
      ∀ r ∈ clean_linkedin_profiles_go leads seen, r.profile_url ∉ seen
  | [], seen => by simp [clean_linkedin_profiles_go]
  | lead :: rest, seen => by
    intro hall
    simp only [clean_linkedin_profiles_go]
    split
    · exact clean_li_profiles_go_spec rest seen
        (fun x hx => hall x (List.mem_cons_of_mem _ hx))
    · rename_i hguard
      push_neg at hguard
      obtain ⟨_, hnotin⟩ := hguard
      have hkeyne : lead.profile_url.getD [] ≠ [] :=
        hall lead (List.mem_cons_self _ _)
      have hkeyeq : orElseStr (lead.profile_url.getD []) NA =
          lead.profile_url.getD [] := by
        unfold orElseStr
        rw [if_neg hkeyne]
      obtain ⟨ih1, ih2⟩ := clean_li_profiles_go_spec rest
        (lead.profile_url.getD [] :: seen)
        (fun x hx => hall x (List.mem_cons_of_mem _ hx))
      refine ⟨?_, ?_⟩
      · rw [List.map_cons, List.nodup_cons]
        refine ⟨fun hmem => ?_, ih1⟩
        obtain ⟨r, hr, hkey⟩ := List.mem_map.mp hmem
        rw [hkeyeq] at hkey
        exact ih2 r hr (hkey ▸ List.mem_cons_self _ _)
      · intro r hr
        rcases List.mem_cons.mp hr with hr | hr
        · rw [hr]
          dsimp only
          rw [hkeyeq]
          exact hnotin
        · exact fun hc => ih2 r hr (List.mem_cons_of_mem _ hc)

theorem clean_li_companies_go_spec :
    ∀ (leads : List LCompanyDict) (seen : List Str),
      (∀ x ∈ leads, x.company_url.getD [] ≠ []) →
      ((clean_linkedin_companies_go leads seen).map (·.company_url)).Nodup ∧
      ∀ r ∈ clean_linkedin_companies_go leads seen, r.company_url ∉ seen
  | [], seen => by simp [clean_linkedin_companies_go]
  | lead :: rest, seen => by
    intro hall
    simp only [clean_linkedin_companies_go]
    split
    · exact clean_li_companies_go_spec rest seen
        (fun x hx => hall x (List.mem_cons_of_mem _ hx))
    · rename_i hguard
      push_neg at hguard
      obtain ⟨_, hnotin⟩ := hguard
      have hkeyne : lead.company_url.getD [] ≠ [] :=
        hall lead (List.mem_cons_self _ _)
      have hkeyeq : orElseStr (lead.company_url.getD []) NA =
          lead.company_url.getD [] := by
        unfold orElseStr
        rw [if_neg hkeyne]
      obtain ⟨ih1, ih2⟩ := clean_li_companies_go_spec rest
        (lead.company_url.getD [] :: seen)
        (fun x hx => hall x (List.mem_cons_of_mem _ hx))
      refine ⟨?_, ?_⟩
      · rw [List.map_cons, List.nodup_cons]
        refine ⟨fun hmem => ?_, ih1⟩
        obtain ⟨r, hr, hkey⟩ := List.mem_map.mp hmem
        rw [hkeyeq] at hkey
        exact ih2 r hr (hkey ▸ List.mem_cons_self _ _)
      · intro r hr
        rcases List.mem_cons.mp hr with hr | hr
        · rw [hr]
          dsimp only
          rw [hkeyeq]
          exact hnotin
        · exact fun hc => ih2 r hr (List.mem_cons_of_mem _ hc)

theorem netlocOf_NA : netlocOf NA = [] := by decide

theorem webIdentity_of_record (lead : WLeadDict) (website name phone : Str)
    (hkey : webKey website name ≠ []) :
    webIdentity (cleanWebRecord lead website name phone) =
      webKey website name := by
  unfold webIdentity cleanWebRecord
  dsimp only
  unfold webKey at hkey ⊢
  by_cases hwe : website = []
  · rw [hwe] at hkey ⊢
    simp only [if_pos rfl] at hkey ⊢
    simp only [ne_eq, not_true_eq_false, if_false] at hkey ⊢
    have hname : name ≠ [] := fun h => hkey (by rw [h]; rfl)
    unfold orElseStr
    rw [if_pos rfl, if_neg hname, netlocOf_NA]
    rfl
  · simp only [if_neg hwe] at hkey ⊢
    unfold orElseStr
    rw [if_neg hwe]
    by_cases hd : pyLower (netlocOf website) = []
    · simp only [hd, ne_eq, not_true_eq_false, if_false] at hkey ⊢
      have hname : name ≠ [] := fun h => hkey (by rw [h]; rfl)
      rw [if_neg hname]
    · simp only [ne_eq, hd, not_false_eq_true, if_true]

theorem clean_web_go_spec :
    ∀ (leads : List WLeadDict) (seen : List Str),
      ((clean_web_leads_go leads seen).map webIdentity).Nodup ∧
      ∀ r ∈ clean_web_leads_go leads seen, webIdentity r ∉ seen
  | [], seen => by simp [clean_web_leads_go]
  | lead :: rest, seen => by
    simp only [clean_web_leads_go]
    split
    · exact clean_web_go_spec rest seen
    · rename_i hguard
      push_neg at hguard
      obtain ⟨hne, hnotin⟩ := hguard
      have hid := webIdentity_of_record lead
        (pyStrip (lead.website.getD [])) (pyStrip (lead.business_name.getD []))
        (let phone0 := lead.phone.getD []
         if phone0 = [] then phone0
         else pyStrip (phone0.filter isWebPhoneChar)) hne
      obtain ⟨ih1, ih2⟩ := clean_web_go_spec rest
        (webKey (pyStrip (lead.website.getD []))
          (pyStrip (lead.business_name.getD [])) :: seen)
      refine ⟨?_, ?_⟩
      · rw [List.map_cons, List.nodup_cons]
        refine ⟨fun hmem => ?_, ih1⟩
        obtain ⟨r, hr, hkey⟩ := List.mem_map.mp hmem
        rw [hid] at hkey
        exact ih2 r hr (hkey ▸ List.mem_cons_self _ _)
      · intro r hr
        rcases List.mem_cons.mp hr with hr | hr
        · rw [hr, hid]
          exact hnotin
        · exact fun hc => ih2 r hr (List.mem_cons_of_mem _ hc)

theorem parse_lead_username {r : RawResult} {place : Str}
    {l : InstagramLead} (h : parse_lead r place = some l) :
    l.username = extract_username r.url := by
  unfold parse_lead at h
  split at h
  · exact absurd h (by simp)
  · dsimp only at h
    split at h
    · exact absurd h (by simp)
    · injection h with h
      rw [← h]

theorem merge_enrichment_username (l : ILeadDict) (e : Enrichment) :
    (merge_enrichment l e).username = l.username := by
  simp only [merge_enrichment, apply_ite (f := fun r : ILeadDict => r.username),
    ite_self]

theorem merge_enrichment_profile_url (l : ILeadDict) (e : Enrichment) :
    (merge_enrichment l e).profile_url = l.profile_url := by
  simp only [merge_enrichment,
    apply_ite (f := fun r : ILeadDict => r.profile_url), ite_self]

theorem merge_enrichment_location (l : ILeadDict) (e : Enrichment) :
    (merge_enrichment l e).location = l.location := by
  simp only [merge_enrichment,
    apply_ite (f := fun r : ILeadDict => r.location), ite_self]

theorem merge_bio (l : ILeadDict) (e : Enrichment) :
    (merge_enrichment l e).bio =
      if truthyO e.bio then e.bio else l.bio := by
  simp only [merge_enrichment, apply_ite (f := fun r : ILeadDict => r.bio),
    ite_self]

theorem merge_email (l : ILeadDict) (e : Enrichment) :
    (merge_enrichment l e).email =
      if truthyO e.email ∧ (l.email.getD [] = [] ∨ l.email.getD [] = NA)
      then e.email else l.email := by
  simp only [merge_enrichment, apply_ite (f := fun r : ILeadDict => r.email),
    ite_self]

theorem merge_phone (l : ILeadDict) (e : Enrichment) :
    (merge_enrichment l e).phone =
      if truthyO e.phone then e.phone else l.phone := by
  simp only [merge_enrichment, apply_ite (f := fun r : ILeadDict => r.phone),
    ite_self]

theorem merge_website (l : ILeadDict) (e : Enrichment) :
    (merge_enrichment l e).website =
      if truthyO e.website then e.website else l.website := by
  simp only [merge_enrichment,
    apply_ite (f := fun r : ILeadDict => r.website), ite_self]

theorem merge_category (l : ILeadDict) (e : Enrichment) :
    (merge_enrichment l e).category =
      if truthyO e.category then e.category else l.category := by
  simp only [merge_enrichment,
    apply_ite (f := fun r : ILeadDict => r.category), ite_self]

theorem merge_followers (l : ILeadDict) (e : Enrichment) :
    (merge_enrichment l e).followers =
      if truthyO e.followers then e.followers else l.followers := by
  simp only [merge_enrichment,
    apply_ite (f := fun r : ILeadDict => r.followers), ite_self]

theorem merge_display_name (l : ILeadDict) (e : Enrichment) :
    (merge_enrichment l e).display_name =
      if truthyO e.display_name ∧
           (l.display_name.getD [] = [] ∨ l.display_name.getD [] = NA)
      then e.display_name else l.display_name := by
  simp only [merge_enrichment,
    apply_ite (f := fun r : ILeadDict => r.display_name), ite_self]

theorem populatedO_of_real {v : Option Str} (hreal : enrFieldReal v = true)
    (ht : truthyO v = true) : populatedO v = true := by
  cases v with
  | none => simp [truthyO] at ht
  | some s =>
    simp only [enrFieldReal] at hreal
    simpa [populatedO, Option.getD] using hreal

theorem populated_ite_field {c : Prop} [Decidable c] {ev lv : Option Str}
    (hreal : enrFieldReal ev = true) (hc : c → truthyO ev = true)
    (hl : populatedO lv = true) :
    populatedO (if c then ev else lv) = true := by
  split
  · rename_i h
    exact populatedO_of_real hreal (hc h)
  · exact hl

theorem enrichGo_usernames (enr : Nat → Option Enrichment) :
    ∀ (i : Nat) (leads : List ILeadDict),
      (enrichGo enr i leads).map (fun l => l.username.getD []) =
        leads.map (fun l => l.username.getD [])
  | _, [] => rfl
  | i, l :: rest => by
    rw [enrichGo, List.map_cons, List.map_cons,
      enrichGo_usernames enr (i + 1) rest]
    congr 1
    split
    · split
      · rw [merge_enrichment_username]
      · rfl
    · rfl

theorem finalizeParseGo_spec (place : Str) :
    ∀ (results : List RawResult) (processed : List Str) (k : Nat),
      ((finalizeParseGo place results processed k).map
        (fun l => l.username.getD [])).Nodup ∧
      ∀ l ∈ finalizeParseGo place results processed k,
        l.username.getD [] ∉ processed
  | results, processed, 0 => by
    cases results <;> simp [finalizeParseGo]
  | [], processed, k + 1 => by simp [finalizeParseGo]
  | r :: rest, processed, k + 1 => by
    simp only [finalizeParseGo]
    split
    · exact finalizeParseGo_spec place rest processed k
    · rename_i hguard
      push_neg at hguard
      obtain ⟨hne, hnotin⟩ := hguard
      split
      · rename_i lead hlead
        have hu : lead.username = extract_username r.url :=
          parse_lead_username hlead
        obtain ⟨ih1, ih2⟩ := finalizeParseGo_spec place rest
          (extract_username r.url :: processed) k
        refine ⟨?_, ?_⟩
        · rw [List.map_cons, List.nodup_cons]
          refine ⟨fun hmem => ?_, ih1⟩
          obtain ⟨d, hd, hkey⟩ := List.mem_map.mp hmem
          have : (asdictIG lead).username.getD [] = extract_username r.url := by
            rw [asdictIG]
            dsimp only
            rw [Option.getD_some, hu]
          rw [this] at hkey
          exact ih2 d hd (hkey ▸ List.mem_cons_self _ _)
        · intro d hd
          rcases List.mem_cons.mp hd with hd | hd
          · rw [hd, asdictIG]
            dsimp only
            rw [Option.getD_some, hu]
            exact hnotin
          · exact fun hc => ih2 d hd (List.mem_cons_of_mem _ hc)
      · obtain ⟨ih1, ih2⟩ := finalizeParseGo_spec place rest
          (extract_username r.url :: processed) k
        exact ⟨ih1, fun d hd hc => ih2 d hd (List.mem_cons_of_mem _ hc)⟩

/-! ## Validator-preservation lemmas -/

theorem lowerChar_at_iff (c : Char) : lowerChar c = '@' ↔ c = '@' :=
  lowerChar_eq_iff_of_sym (by decide) (by decide)

theorem mem_at_pyLower (e : Str) : '@' ∈ pyLower e ↔ '@' ∈ e := by
  simp only [pyLower, List.mem_map]
  constructor
  · rintro ⟨c, hc, hl⟩
    rwa [← (lowerChar_at_iff c).mp hl]
  · intro h
    exact ⟨'@', h, by decide⟩

theorem hasSubstr_at_pyLower (e : Str) :
    hasSubstr ['@'] (pyLower e) = hasSubstr ['@'] e := by
  rw [Bool.eq_iff_iff, hasSubstr_single, hasSubstr_single]
  exact mem_at_pyLower e

theorem splitChar_at_pyLower :
    ∀ e : Str, splitChar '@' (pyLower e) = (splitChar '@' e).map pyLower
  | [] => rfl
  | x :: xs => by
    have ih := splitChar_at_pyLower xs
    show splitChar '@' (lowerChar x :: pyLower xs) =
      (splitChar '@' (x :: xs)).map pyLower
    rw [splitChar, splitChar]
    by_cases hx : x = '@'
    · rw [if_pos ((lowerChar_at_iff x).mpr hx), if_pos hx, List.map_cons, ih]
      rfl
    · rw [if_neg (fun h => hx ((lowerChar_at_iff x).mp h)), if_neg hx, ih]
      cases hsp : splitChar '@' xs with
      | nil => exact absurd hsp (splitChar_ne_nil _ _)
      | cons h t => simp [List.map_cons]; rfl

theorem getD_one_map_pyLower (l : List Str) :
    (l.map pyLower).getD 1 [] = pyLower (l.getD 1 []) := by
  match l with
  | [] => rfl
  | [a] => rfl
  | a :: b :: t => rfl

theorem is_valid_email_pyLower (bl : List Str) (e : Str) :
    is_valid_email bl (pyLower e) = is_valid_email bl e := by
  unfold is_valid_email
  rw [hasSubstr_at_pyLower, splitChar_at_pyLower, getD_one_map_pyLower,
    pyLower_idem]
  by_cases he : e = []
  · rw [he]; rfl
  · rw [if_neg (fun h => he ((pyLower_eq_nil_iff e).mp h)), if_neg he]

theorem is_valid_email_spec {bl : List Str} {e : Str}
    (h : is_valid_email bl e = true) :
    e ≠ [] ∧ hasSubstr ['@'] e = true ∧
    pyLower ((splitChar '@' e).getD 1 []) ∉ bl ∧
    hasAssetSuffix (pyLower ((splitChar '@' e).getD 1 [])) = false := by
  unfold is_valid_email at h
  split at h
  · exact absurd h (by simp)
  · rename_i hne
    split at h
    · exact absurd h (by simp)
    · rename_i hat
      dsimp only at h
      split at h
      · exact absurd h (by simp)
      · rename_i hbl
        split at h
        · exact absurd h (by simp)
        · rename_i hasset
          exact ⟨hne, not_not.mp hat, hbl,
            Bool.not_eq_true _ ▸ eq_false_of_ne_true hasset⟩

theorem mem_collectValidEmails {bl cands : List Str} {e : Str}
    (h : e ∈ collectValidEmails bl cands) :
    is_valid_email bl e = true := by
  unfold collectValidEmails at h
  obtain ⟨e0, he0, rfl⟩ := List.mem_map.mp (mem_dedupStrs (mem_sortStrs h))
  rw [is_valid_email_pyLower]
  exact (List.mem_filter.mp he0).2

/-! ## Social-shape lemmas -/

theorem isPrefixOf_take_eq :
    ∀ {l s : Str}, l.isPrefixOf s = true → s.take l.length = l
  | [], _, _ => by simp
  | a :: as, [], h => by simp [List.isPrefixOf] at h
  | a :: as, b :: bs, h => by
    simp only [List.isPrefixOf, Bool.and_eq_true, beq_iff_eq] at h
    rw [List.length_cons, List.take_succ_cons, ← h.1,
      isPrefixOf_take_eq h.2]

theorem matchCI_take {lit s r : Str} (h : matchCI lit s = some r) :
    pyLower (s.take lit.length) = lit := by
  unfold matchCI at h
  split at h
  · rename_i hp
    show (s.take lit.length).map lowerChar = lit
    rw [List.map_take]
    exact isPrefixOf_take_eq hp
  · exact absurd h (by simp)

theorem all_takeWhile_self (p : α → Bool) :
    ∀ l : List α, (l.takeWhile p).all p = true
  | [] => rfl
  | x :: xs => by
    rw [List.takeWhile_cons]
    cases hp : p x with
    | false => rfl
    | true => simp [hp, all_takeWhile_self p xs]

theorem socialAltParse_spec :
    ∀ {alts : List Str} {cur ap run : Str},
      socialAltParse alts cur = some (ap, run) →
      pyLower ap ∈ alts ∧ run ≠ [] ∧ run.all isUserChar = true
  | [], cur, ap, run, h => by simp [socialAltParse] at h
  | a :: rest, cur, ap, run, h => by
    rw [socialAltParse] at h
    split at h
    · rename_i r hm
      split at h
      · obtain ⟨h1, h2, h3⟩ := socialAltParse_spec h
        exact ⟨List.mem_cons_of_mem _ h1, h2, h3⟩
      · rename_i g gs hrun
        rw [Option.some.injEq, Prod.mk.injEq] at h
        obtain ⟨hap, hr⟩ := h
        refine ⟨?_, ?_, ?_⟩
        · rw [← hap, matchCI_take hm]
          exact List.mem_cons_self _ _
        · rw [← hr]; simp
        · rw [← hr, ← hrun]
          exact all_takeWhile_self _ _
    · obtain ⟨h1, h2, h3⟩ := socialAltParse_spec h
      exact ⟨List.mem_cons_of_mem _ h1, h2, h3⟩

theorem socialMatchAt_matches {p : SocialPat} {s m : Str}
    (h : socialMatchAt p s = some m) : MatchesSocial p m := by
  unfold socialMatchAt at h
  dsimp only at h
  cases hhttps : matchCI (("https://").data) s with
  | some r1 =>
    rw [hhttps] at h
    dsimp only at h
    cases hwww : matchCI (("www.").data) r1 with
    | some r2 =>
      rw [hwww] at h
      dsimp only at h
      cases hap : socialAltParse p.alts r2 with
      | some pr =>
        obtain ⟨ap, run⟩ := pr
        rw [hap] at h
        dsimp only at h
        rw [Option.some.injEq] at h
        obtain ⟨h1, h2, h3⟩ := socialAltParse_spec hap
        exact ⟨_, _, _, _, h.symm, Or.inr (matchCI_take hhttps),
          Or.inr (matchCI_take hwww), h1, h2, h3⟩
      | none => rw [hap] at h; exact absurd h (by simp)
    | none =>
      rw [hwww] at h
      dsimp only at h
      cases hap : socialAltParse p.alts r1 with
      | some pr =>
        obtain ⟨ap, run⟩ := pr
        rw [hap] at h
        dsimp only at h
        rw [Option.some.injEq] at h
        obtain ⟨h1, h2, h3⟩ := socialAltParse_spec hap
        exact ⟨_, _, _, _, h.symm, Or.inr (matchCI_take hhttps),
          Or.inl rfl, h1, h2, h3⟩
      | none => rw [hap] at h; exact absurd h (by simp)
  | none =>
    rw [hhttps] at h
    dsimp only at h
    cases hhttp : matchCI (("http://").data) s with
    | some r1 =>
      rw [hhttp] at h
      dsimp only at h
      cases hwww : matchCI (("www.").data) r1 with
      | some r2 =>
        rw [hwww] at h
        dsimp only at h
        cases hap : socialAltParse p.alts r2 with
        | some pr =>
          obtain ⟨ap, run⟩ := pr
          rw [hap] at h
          dsimp only at h
          rw [Option.some.injEq] at h
          obtain ⟨h1, h2, h3⟩ := socialAltParse_spec hap
          exact ⟨_, _, _, _, h.symm, Or.inl (matchCI_take hhttp),
            Or.inr (matchCI_take hwww), h1, h2, h3⟩
        | none => rw [hap] at h; exact absurd h (by simp)
      | none =>
        rw [hwww] at h
        dsimp only at h
        cases hap : socialAltParse p.alts r1 with
        | some pr =>
          obtain ⟨ap, run⟩ := pr
          rw [hap] at h
          dsimp only at h
          rw [Option.some.injEq] at h
          obtain ⟨h1, h2, h3⟩ := socialAltParse_spec hap
          exact ⟨_, _, _, _, h.symm, Or.inl (matchCI_take hhttp),
            Or.inl rfl, h1, h2, h3⟩
        | none => rw [hap] at h; exact absurd h (by simp)
    | none => rw [hhttp] at h; exact absurd h (by simp)

set_option maxHeartbeats 1000000 in
theorem socialSearch_matches {p : SocialPat} {t m : Str}
    (h : socialSearch p t = some m) : MatchesSocial p m := by
  induction t with
  | nil => exact absurd h (by simp [socialSearch])
  | cons c rest ih =>
    rw [socialSearch] at h
    cases hm : socialMatchAt p (c :: rest) with
    | some m0 =>
      rw [hm] at h
      dsimp only at h
      rw [Option.some.injEq] at h
      exact h ▸ socialMatchAt_matches hm
    | none =>
      rw [hm] at h
      dsimp only at h
      exact ih h

theorem socialFromHrefs_shape (p : SocialPat) (hrefs : List Str) :
    socialFromHrefs p hrefs = [] ∨
      MatchesSocial p (socialFromHrefs p hrefs) := by
  unfold socialFromHrefs
  split
  · rename_i m hm
    obtain ⟨h0, _, hh⟩ := List.exists_of_findSome?_eq_some hm
    exact Or.inr (socialMatchAt_matches hh)
  · exact Or.inl rfl

theorem socialFromText_shape (p : SocialPat) (text : Str) :
    socialFromText p text = [] ∨
      MatchesSocial p (socialFromText p text) := by
  unfold socialFromText
  split
  · rename_i m hm
    exact Or.inr (socialSearch_matches hm)
  · exact Or.inl rfl

theorem updateSocial_shape {p : SocialPat} {cur : Str} {hrefs : List Str}
    {text : Str} (hcur : cur = [] ∨ MatchesSocial p cur) :
    updateSocial p cur hrefs text = [] ∨
      MatchesSocial p (updateSocial p cur hrefs text) := by
  unfold updateSocial
  dsimp only
  by_cases h0 : (if cur = [] then socialFromHrefs p hrefs else cur) = []
  · rw [if_pos h0]
    exact socialFromText_shape p text
  · rw [if_neg h0]
    by_cases hc : cur = []
    · rw [if_pos hc] at h0 ⊢
      exact Or.inr ((socialFromHrefs_shape p hrefs).resolve_left h0)
    · rw [if_neg hc] at h0 ⊢
      exact Or.inr (hcur.resolve_left hc)

theorem foldSocial_shape (p : SocialPat) :
    ∀ (pages : List (List Str × Str)) (cur : Str),
      (cur = [] ∨ MatchesSocial p cur) →
      (pages.foldl (fun cur pg => updateSocial p cur pg.1 pg.2) cur = [] ∨
        MatchesSocial p
          (pages.foldl (fun cur pg => updateSocial p cur pg.1 pg.2) cur))
  | [], cur, hcur => hcur
  | pg :: rest, cur, hcur => by
    rw [List.foldl_cons]
    exact foldSocial_shape p rest _ (updateSocial_shape hcur)

theorem collectSocial_shape (p : SocialPat)
    (pages : List (List Str × Str)) :
    collectSocial p pages = [] ∨
      MatchesSocial p (collectSocial p pages) :=
  foldSocial_shape p pages [] (Or.inl rfl)

/-! ## Claim theorems -/

theorem clean_leads_go_fields :
    ∀ (leads : List BLeadDict) (seen : List Str) (r : CleanedGmapsLead),
      r ∈ clean_leads_go leads seen →
      r.business_name ≠ [] ∧ r.owner_name ≠ [] ∧ r.phone ≠ [] ∧
      r.website ≠ [] ∧ r.email ≠ [] ∧ r.address ≠ [] ∧ r.rating ≠ [] ∧
      r.reviews ≠ [] ∧ r.category ≠ [] ∧ r.facebook ≠ [] ∧
      r.instagram ≠ [] ∧ r.twitter ≠ [] ∧ r.linkedin ≠ [] ∧
      r.youtube ≠ [] ∧ r.tiktok ≠ [] ∧ r.pinterest ≠ []
  | [], _, r => by simp [clean_leads_go]
  | lead :: rest, seen, r => by
    simp only [clean_leads_go]
    split
    · exact clean_leads_go_fields rest seen r
    · rename_i hguard
      push_neg at hguard
      intro hr
      rcases List.mem_cons.mp hr with hr | hr
      · subst hr
        exact ⟨hguard.1, orNA_ne_nil _, orElseStr_NA_ne_nil _,
          orElseStr_NA_ne_nil _, orNA_ne_nil _, orNA_ne_nil _,
          orNA_ne_nil _, orNA_ne_nil _, orNA_ne_nil _, orNA_ne_nil _,
          orNA_ne_nil _, orNA_ne_nil _, orNA_ne_nil _, orNA_ne_nil _,
          orNA_ne_nil _, orNA_ne_nil _⟩
      · exact clean_leads_go_fields rest _ r hr

theorem clean_instagram_go_fields :
    ∀ (leads : List ILeadDict) (seen : List Str)
      (s : CleanedInstagramLead),
      s ∈ clean_instagram_leads_go leads seen →
      s.username ≠ [] ∧ s.profile_url ≠ [] ∧ s.display_name ≠ [] ∧
      s.bio ≠ [] ∧ s.email ≠ [] ∧ s.phone ≠ [] ∧ s.website ≠ [] ∧
      s.category ≠ [] ∧ s.followers ≠ [] ∧ s.location ≠ []
  | [], _, s => by simp [clean_instagram_leads_go]
  | lead :: rest, seen, s => by
    simp only [clean_instagram_leads_go]
    split
    · exact clean_instagram_go_fields rest seen s
    · rename_i hguard
      push_neg at hguard
      intro hs
      rcases List.mem_cons.mp hs with hs | hs
      · subst hs
        exact ⟨hguard.1, orNA_ne_nil _, orNA_ne_nil _, orNA_ne_nil _,
          orNA_ne_nil _, orNA_ne_nil _, orNA_ne_nil _, orNA_ne_nil _,
          orNA_ne_nil _, orNA_ne_nil _⟩
      · exact clean_instagram_go_fields rest _ s hs

/-- Sample LinkedIn profile dicts (two leads sharing one profile URL). -/
def LP_SAMPLE : List LProfileDict :=
  [{ name := some (("Jane Doe").data),
     profile_url := some (("https://www.linkedin.com/in/jane").data) },
   { name := some (("Jane Two").data),
     profile_url := some (("https://www.linkedin.com/in/jane").data) }]

/-- Sample web-crawler lead dicts (two leads sharing one domain). -/
def WEB_SAMPLE : List WLeadDict :=
  [{ business_name := some (("Biz").data),
     website := some (("https://biz.com/x").data) },
   { business_name := some (("Other").data),
     website := some (("http://BIZ.com/y").data) }]

/-- C1: Every deduplication pass emits at most one lead per identity:
cleaned Google-Maps leads have pairwise distinct business names, cleaned
Instagram leads — and the lead list built by the `_finalize_leads`
parse/enrich pipeline — have pairwise distinct usernames, cleaned
LinkedIn profiles/companies have pairwise distinct profile/company URLs
(inputs with a URL, as all parser-produced leads are), and cleaned
web-crawler leads have pairwise distinct domain-or-name identities.
Hence `len(finalLeads)` equals the number of distinct identities. -/
theorem C1_dedup_invariant (g : List BLeadDict) (ig : List ILeadDict)
    (lp : List LProfileDict) (lc : List LCompanyDict) (w : List WLeadDict)
    (results : List RawResult) (place : Str) (stopLeft : Nat)
    (enr : Nat → Option Enrichment)
    (hlp : ∀ x ∈ lp, x.profile_url.getD [] ≠ [])
    (hlc : ∀ x ∈ lc, x.company_url.getD [] ≠ []) :
    ((clean_leads g).map (·.business_name)).Nodup ∧
    ((clean_instagram_leads ig).map (·.username)).Nodup ∧
    ((clean_linkedin_profiles lp).map (·.profile_url)).Nodup ∧
    ((clean_linkedin_companies lc).map (·.company_url)).Nodup ∧
    ((clean_web_leads w).map webIdentity).Nodup ∧
    ((finalize_leads results place stopLeft enr).map
      (fun l => l.username.getD [])).Nodup := by
  refine ⟨(clean_leads_go_spec g []).1, (clean_instagram_go_spec ig []).1,
    (clean_li_profiles_go_spec lp [] hlp).1,
    (clean_li_companies_go_spec lc [] hlc).1,
    (clean_web_go_spec w []).1, ?_⟩
  unfold finalize_leads
  rw [enrichGo_usernames]
  exact (finalizeParseGo_spec place results [] stopLeft).1

/-- C1 witness: duplicate-identity inputs collapse to distinct
identities. -/
theorem C1_dedup_witness :
    ((clean_linkedin_profiles LP_SAMPLE).map (·.profile_url)).Nodup ∧
    ((clean_web_leads WEB_SAMPLE).map webIdentity).Nodup :=
  let h := C1_dedup_invariant [] [] LP_SAMPLE [] WEB_SAMPLE [] [] 0
    (fun _ => none) (by decide) (by decide)
  ⟨h.2.2.1, h.2.2.2.2.1⟩

/-- C7: In every cleaned lead record, a missing or empty attribute field
is represented by the explicit unknown marker `N/A`, never by an empty
string: the `orNA` normalisation used by the cleaners maps an absent key
or an empty value to exactly `N/A` and never yields the empty string, and
every field of every record emitted by `clean_leads` and
`clean_instagram_leads` is non-empty. -/
theorem C7_no_empty_fields (g : List BLeadDict) (ig : List ILeadDict)
    (r : CleanedGmapsLead) (s : CleanedInstagramLead)
    (hr : r ∈ clean_leads g) (hs : s ∈ clean_instagram_leads ig) :
    (∀ v, orNA v ≠ [] ∧ ((v = none ∨ v = some []) → orNA v = NA)) ∧
    (r.business_name ≠ [] ∧ r.owner_name ≠ [] ∧ r.phone ≠ [] ∧
     r.website ≠ [] ∧ r.email ≠ [] ∧ r.address ≠ [] ∧ r.rating ≠ [] ∧
     r.reviews ≠ [] ∧ r.category ≠ [] ∧ r.facebook ≠ [] ∧
     r.instagram ≠ [] ∧ r.twitter ≠ [] ∧ r.linkedin ≠ [] ∧
     r.youtube ≠ [] ∧ r.tiktok ≠ [] ∧ r.pinterest ≠ []) ∧
    (s.username ≠ [] ∧ s.profile_url ≠ [] ∧ s.display_name ≠ [] ∧
     s.bio ≠ [] ∧ s.email ≠ [] ∧ s.phone ≠ [] ∧ s.website ≠ [] ∧
     s.category ≠ [] ∧ s.followers ≠ [] ∧ s.location ≠ []) :=
  ⟨fun v => ⟨orNA_ne_nil v, orNA_of_absent v⟩,
   clean_leads_go_fields g [] r hr,
   clean_instagram_go_fields ig [] s hs⟩

/-- C7 witness: a one-lead input whose only populated attribute is the
name; every optional field of the emitted record is exactly `N/A`. -/
theorem C7_witness :
    orNA (some []) ≠ [] ∧ orNA (some []) = NA ∧
    ({ business_name := ("A").data, owner_name := NA, phone := NA,
       website := NA, email := NA, address := NA, rating := NA,
       reviews := NA, category := NA, facebook := NA, instagram := NA,
       twitter := NA, linkedin := NA, youtube := NA, tiktok := NA,
       pinterest := NA } : CleanedGmapsLead).email ≠ [] ∧
    ({ username := ("u").data, profile_url := NA, display_name := NA,
       bio := NA, email := NA, phone := NA, website := NA, category := NA,
       followers := NA, location := NA } : CleanedInstagramLead).bio
      ≠ [] :=
  let h := C7_no_empty_fields
    [{ business_name := some (("A").data) }]
    [{ username := some (("u").data) }]
    { business_name := ("A").data, owner_name := NA, phone := NA,
      website := NA, email := NA, address := NA, rating := NA,
      reviews := NA, category := NA, facebook := NA, instagram := NA,
      twitter := NA, linkedin := NA, youtube := NA, tiktok := NA,
      pinterest := NA }
    { username := ("u").data, profile_url := NA, display_name := NA,
      bio := NA, email := NA, phone := NA, website := NA, category := NA,
      followers := NA, location := NA }
    (by decide) (by decide)
  ⟨(h.1 (some [])).1, (h.1 (some [])).2 (Or.inr rfl),
   h.2.1.2.2.2.2.1, h.2.2.2.2.2.1⟩

/-- C2: For a job on which `stop()` is invoked before all planned
admissions are exhausted (the handler fires after `stopCallAt ≤ stopAt`
admissions and the scraper observes the flag at the check after `stopAt <
len(planned)` admissions), the job ends with status `stopped` and its
`leads` field is exactly `clean_leads` of the leads admitted before the
stop was observed: nothing collected before the stop is lost and nothing
is added after it. -/
theorem C2_stop_partial (planned : List BusinessLead)
    (stopCallAt stopAt : Nat) (_hle : stopCallAt ≤ stopAt)
    (_hlt : stopAt < planned.length) :
    (runJobWithStop planned stopCallAt stopAt).status = .stopped ∧
    (runJobWithStop planned stopCallAt stopAt).leads =
      clean_leads ((planned.take stopAt).map asdictB) ∧
    scrapeCollect planned stopAt = planned.take stopAt := by
  refine ⟨?_, ?_, scrapeCollect_eq_take planned stopAt⟩
  · unfold runJobWithStop run_scraping_job_tail stop_scrape
    dsimp only
    split_ifs <;> first | rfl | simp_all
  · unfold runJobWithStop run_scraping_job_tail stop_scrape
      gmapsScrapeReturn
    simp only [scrapeCollect_eq_take]
    split_ifs <;> rfl

/-- C2 witness: a concrete two-lead plan stopped after one admission. -/
theorem C2_witness :
    (runJobWithStop
        [{ business_name := ("A").data }, { business_name := ("B").data }]
        1 1).status = JobStatus.stopped ∧
    (runJobWithStop
        [{ business_name := ("A").data }, { business_name := ("B").data }]
        1 1).leads =
      clean_leads
        (([({ business_name := ("A").data } : BusinessLead),
           { business_name := ("B").data }].take 1).map asdictB) :=
  let h := C2_stop_partial
    [{ business_name := ("A").data }, { business_name := ("B").data }]
    1 1 (by decide) (by decide)
  ⟨h.1, h.2.1⟩

/-- C3: The Result Parser fallback chain is short-circuiting in order:
the Instagram `or`-idiom and the LinkedIn if-chain compute the same
result; strategy 2 is invoked only when strategy 1 yields zero records,
strategy 3 only when both earlier strategies do, and when strategy 1
yields at least one record strategies 2 and 3 are never invoked. -/
theorem C3_fallback_short_circuit (s1 s2 s3 : List RawResult) :
    pyOrList s1 (pyOrList s2 s3) = fallbackChain s1 s2 s3 ∧
    (fallbackChainTraced s1 s2 s3).1 = fallbackChain s1 s2 s3 ∧
    (s1 ≠ [] →
      fallbackChainTraced s1 s2 s3 = (s1, [1]) ∧
      2 ∉ (fallbackChainTraced s1 s2 s3).2 ∧
      3 ∉ (fallbackChainTraced s1 s2 s3).2) ∧
    (s1 = [] → s2 ≠ [] →
      fallbackChainTraced s1 s2 s3 = (s2, [1, 2]) ∧
      3 ∉ (fallbackChainTraced s1 s2 s3).2) ∧
    (s1 = [] → s2 = [] →
      fallbackChainTraced s1 s2 s3 = (s3, [1, 2, 3])) := by
  unfold pyOrList fallbackChain fallbackChainTraced
  by_cases h1 : s1 = [] <;> by_cases h2 : s2 = [] <;> simp [h1, h2]

/-- C3 witness: a page where strategy 1 succeeds invokes neither
strategy 2 nor strategy 3. -/
theorem C3_witness :
    fallbackChainTraced [({} : RawResult)] [] [] =
      ([({} : RawResult)], [1]) ∧
    2 ∉ (fallbackChainTraced [({} : RawResult)] [] []).2 ∧
    3 ∉ (fallbackChainTraced [({} : RawResult)] [] []).2 :=
  (C3_fallback_short_circuit [({} : RawResult)] [] []).2.2.1 (by decide)

/-- C4 counterexample: the claim asserts every search backend driver runs
a 3-attempt backoff loop on a bot challenge.  On a challenge that
persists through the first re-fetch and resolves on the second, the
Instagram Google driver recovers (2 re-fetches, not blocked), but the
LinkedIn and web-crawler Google drivers perform exactly one re-fetch —
not a 3-attempt loop — and abandon the query. -/
theorem C4_counterexample :
    (igCaptchaBackoff (fun i => decide (i < 2)) (fun _ => 7)).blocked
        = false ∧
    (igCaptchaBackoff (fun i => decide (i < 2)) (fun _ => 7)).fetches = 2 ∧
    (liCaptchaBackoff (fun i => decide (i < 2)) 7).fetches = 1 ∧
    (liCaptchaBackoff (fun i => decide (i < 2)) 7).fetches ≠ 3 ∧
    (liCaptchaBackoff (fun i => decide (i < 2)) 7).blocked = true ∧
    (webCaptchaBackoff (fun i => decide (i < 2)) 7).fetches = 1 := by
  decide

/-- C4 (amended): only the Instagram Google driver runs the bounded
3-attempt backoff loop, with delay strictly growing in the attempt index
plus jitter; the LinkedIn and web-crawler Google drivers back off and
re-fetch exactly once.  In all drivers, exhausting the retries abandons
only the current query: the query loop still runs every other query. -/
theorem C4_amended (challenge : Nat → Bool) (jitter : Nat → Nat)
    (jit : Nat) (c2 : Nat → Bool)
    (h0 : challenge 0 = true) (h1 : challenge 1 = true)
    (h2 : challenge 2 = true) (h3 : challenge 3 = true)
    (hc2 : c2 0 = true) :
    igCaptchaBackoff challenge jitter =
      ⟨[igWait 0 (jitter 0), igWait 1 (jitter 1), igWait 2 (jitter 2)],
       3, true⟩ ∧
    (∀ a b j, a < b → igWait a j < igWait b j) ∧
    (liCaptchaBackoff c2 jit).fetches = 1 ∧
    (liCaptchaBackoff c2 jit).blocked = c2 1 ∧
    (webCaptchaBackoff c2 jit).fetches = 1 ∧
    (∀ q qs1 qs2, (∀ i, q.challenge 0 i = true) →
      igSearchAll (qs1 ++ q :: qs2) =
        igSearchAll qs1 ++ igSearchQuery q :: igSearchAll qs2 ∧
      igSearchQuery q = []) := by
  refine ⟨?_, ?_, ?_, ?_, ?_, ?_⟩
  · simp [igCaptchaBackoff, h0, igRetry, h1, h2, h3, igWait]
  · intro a b j hab
    unfold igWait
    omega
  · simp [liCaptchaBackoff, hc2]
  · simp [liCaptchaBackoff, hc2]
  · simp [webCaptchaBackoff, hc2]
  · intro q qs1 qs2 hq
    have hquery : igSearchQuery q = [] := by
      unfold igSearchQuery
      cases hn : q.numPages with
      | zero => rfl
      | succ n =>
        rw [igSearchPages]
        have hb : (igCaptchaBackoff (q.challenge 0) q.jitter).blocked
            = true := by
          simp [igCaptchaBackoff, hq 0, igRetry, hq 1, hq 2, hq 3]
        simp [hb]
    exact ⟨by simp [igSearchAll], hquery⟩

/-- C4 witness: the amended statement at a persistent challenge. -/
theorem C4_witness :
    igCaptchaBackoff (fun _ => true) (fun i => i) =
      ⟨[igWait 0 0, igWait 1 1, igWait 2 2], 3, true⟩ ∧
    (liCaptchaBackoff (fun _ => true) 0).fetches = 1 :=
  let h := C4_amended (fun _ => true) (fun i => i) 0 (fun _ => true)
    rfl rfl rfl rfl rfl
  ⟨h.1, h.2.2.1⟩

/-- Executable monotone non-decrease check on a progress trace. -/
def monotoneNat : List Nat → Bool
  | [] => true
  | [_] => true
  | a :: b :: rest => a ≤ b && monotoneNat (b :: rest)

theorem monotoneNat_iff_chain :
    ∀ l : List Nat, monotoneNat l = true ↔ List.Chain' (· ≤ ·) l
  | [] => by simp [monotoneNat]
  | [a] => by simp [monotoneNat]
  | a :: b :: rest => by
    rw [monotoneNat, Bool.and_eq_true, monotoneNat_iff_chain (b :: rest),
      List.chain'_cons]
    simp

/-- C5: the claim says the recorded progress sequence of every job run is
monotonically non-decreasing, starting at 0.  The code violates this: in
a Google-Maps run with 21 planned queries (place "Dubai") where no query
loads listings, the recorded sequence starts at 0 but oscillates — the
per-query helper milestones (`_search_maps` reports 5, `_get_listing_links`
reports 35/40) conflict with the outer loop's scaled percentages, e.g.
40 is followed by 2. -/
theorem C5_progress_not_monotone :
    (progressTrace (gmapsNoListingReports 21)).head? = some 0 ∧
    ¬ List.Chain' (· ≤ ·) (progressTrace (gmapsNoListingReports 21)) := by
  constructor
  · decide
  · rw [← monotoneNat_iff_chain]
    decide

/-- C10: In all four scraper classes, `scrape()` unconditionally resets
the internal stop flag (and, where present, the partial-lead buffer) on
entry, so a `stop()` issued before the run begins is discarded: starting
a run after `stop()` yields exactly the same scraper state as starting it
without the stop. -/
theorem C10_stop_reset (g : GmapsScraperState) (i : IgScraperState)
    (l : LiScraperState) (w : WebScraperState) :
    gmapsScrapeEntry (gmapsStop g) = gmapsScrapeEntry g ∧
    (gmapsScrapeEntry g).should_stop = false ∧
    igScrapeEntry (igStop i) = igScrapeEntry i ∧
    (igScrapeEntry i).should_stop = false ∧
    liScrapeEntry (liStop l) = liScrapeEntry l ∧
    (liScrapeEntry l).should_stop = false ∧
    webScrapeEntry (webStop w) = webScrapeEntry w ∧
    (webScrapeEntry w).should_stop = false := by
  cases g; cases i; cases l; cases w
  exact ⟨rfl, rfl, rfl, rfl, rfl, rfl, rfl, rfl⟩

/-- C6: every populated contact field passes its validator.  Every email
accepted into the email set of `_scrape_website` (and, with the Instagram
blacklist, of `_parse_lead`) passes `_is_valid_email`: it is non-empty,
contains `@`, its lowercased domain is outside the blacklist and carries
no image/asset file extension.  Every social-platform slot produced by
`_scrape_website` is either empty or matches that platform's host URL
pattern `https?://(www\.)?HOST/[\w.\-]+` case-insensitively. -/
theorem C6_field_validators (bl cands : List Str) (e : Str)
    (p : SocialPat) (pages : List (List Str × Str))
    (he : e ∈ collectValidEmails bl cands) :
    is_valid_email bl e = true ∧
    e ≠ [] ∧
    hasSubstr ['@'] e = true ∧
    pyLower ((splitChar '@' e).getD 1 []) ∉ bl ∧
    hasAssetSuffix (pyLower ((splitChar '@' e).getD 1 [])) = false ∧
    (collectSocial p pages = [] ∨
      MatchesSocial p (collectSocial p pages)) := by
  have hv := mem_collectValidEmails he
  obtain ⟨h1, h2, h3, h4⟩ := is_valid_email_spec hv
  exact ⟨hv, h1, h2, h3, h4, collectSocial_shape p pages⟩

/-- C6 witness: the single candidate email is accepted and the facebook
slot filled from one page's anchor satisfies the conclusion. -/
theorem C6_witness :
    is_valid_email EMAIL_BLACKLIST_GMAPS (("info@shop.io").data) = true ∧
    (collectSocial FACEBOOK_PAT
        [([("https://facebook.com/mypage").data], [])] = [] ∨
      MatchesSocial FACEBOOK_PAT
        (collectSocial FACEBOOK_PAT
          [([("https://facebook.com/mypage").data], [])])) :=
  have hm : ("info@shop.io").data ∈
      collectValidEmails EMAIL_BLACKLIST_GMAPS [("info@shop.io").data] := by
    rw [collectValidEmails,
      show ([("info@shop.io").data].filter
          (is_valid_email EMAIL_BLACKLIST_GMAPS)).map pyLower =
        [("info@shop.io").data] from by decide,
      dedupStrs, List.filter_nil, dedupStrs]
    decide
  let h := C6_field_validators EMAIL_BLACKLIST_GMAPS
    [("info@shop.io").data] (("info@shop.io").data) FACEBOOK_PAT
    [([("https://facebook.com/mypage").data], [])] hm
  ⟨h.1, h.2.2.2.2.2⟩

/-- C9: lead extraction is total on arbitrary raw result records.  Run in
the explicit exception monad, with every Python subscript (`parts[0]`,
`url.split("?")[0]`, `snippet.split("·")[0]`, …) embedded as a fallible
index, `_parse_lead` always returns `.ok` of its pure value (a lead or
`none`), `_parse_profile_from_serp` never returns `.error`, and
`_is_valid_email` always returns `.ok`: no input raises. -/
theorem C9_extraction_total (r : RawResult) (place : Str) :
    parse_lead_ex r place = .ok (parse_lead r place) ∧
    (parse_profile_ex r).isOk = true ∧
    (∀ bl e, is_valid_email_ex bl e = .ok (is_valid_email bl e)) :=
  ⟨parse_lead_ex_eq r place, parse_profile_ex_isOk r,
   fun bl e => is_valid_email_ex_eq bl e⟩

/-- C8 counterexample: the claim's hypothesis, that enrichment values are
non-empty strings, does not rule out the value `"N/A"`, which is itself a
non-empty string; `_merge_enrichment` copies a truthy `bio` (and `phone`,
`website`, `category`, `followers`) unconditionally, so an enrichment dict
with `bio = "N/A"` downgrades a lead whose bio was the populated string
`"hello"` to the unknown marker. -/
theorem C8_counterexample :
    enrValuesNonEmpty { bio := some NA } = true ∧
    populatedO ({ bio := some (("hello").data) } : ILeadDict).bio = true ∧
    populatedO (merge_enrichment { bio := some (("hello").data) }
      { bio := some NA }).bio = false := by
  decide

/-- C8 amended: if every enrichment value is non-empty AND distinct from
`"N/A"`, then `_merge_enrichment` never downgrades a field: every
populated field of the lead (non-empty and not `"N/A"`) is still
populated after the merge; every field for which the enrichment dict has
no entry is left unchanged; and `username`, `profile_url` and `location`,
which the merge never touches, are always unchanged. -/
theorem C8_amended (lead : ILeadDict) (e : Enrichment)
    (hre : enrValuesReal e = true) :
    (populatedO lead.bio = true →
      populatedO (merge_enrichment lead e).bio = true) ∧
    (populatedO lead.email = true →
      populatedO (merge_enrichment lead e).email = true) ∧
    (populatedO lead.phone = true →
      populatedO (merge_enrichment lead e).phone = true) ∧
    (populatedO lead.website = true →
      populatedO (merge_enrichment lead e).website = true) ∧
    (populatedO lead.category = true →
      populatedO (merge_enrichment lead e).category = true) ∧
    (populatedO lead.followers = true →
      populatedO (merge_enrichment lead e).followers = true) ∧
    (populatedO lead.display_name = true →
      populatedO (merge_enrichment lead e).display_name = true) ∧
    (e.bio = none → (merge_enrichment lead e).bio = lead.bio) ∧
    (e.email = none → (merge_enrichment lead e).email = lead.email) ∧
    (e.phone = none → (merge_enrichment lead e).phone = lead.phone) ∧
    (e.website = none → (merge_enrichment lead e).website = lead.website) ∧
    (e.category = none →
      (merge_enrichment lead e).category = lead.category) ∧
    (e.followers = none →
      (merge_enrichment lead e).followers = lead.followers) ∧
    (e.display_name = none →
      (merge_enrichment lead e).display_name = lead.display_name) ∧
    (merge_enrichment lead e).username = lead.username ∧
    (merge_enrichment lead e).profile_url = lead.profile_url ∧
    (merge_enrichment lead e).location = lead.location := by
  simp only [enrValuesReal, Bool.and_eq_true] at hre
  obtain ⟨⟨⟨⟨⟨⟨hb, he'⟩, hp⟩, hw⟩, hc⟩, hf⟩, hd⟩ := hre
  refine ⟨?_, ?_, ?_, ?_, ?_, ?_, ?_, ?_, ?_, ?_, ?_, ?_, ?_, ?_,
    merge_enrichment_username lead e, merge_enrichment_profile_url lead e,
    merge_enrichment_location lead e⟩
  · intro hl
    rw [merge_bio]
    exact populated_ite_field hb id hl
  · intro hl
    rw [merge_email]
    exact populated_ite_field he' (fun h => h.1) hl
  · intro hl
    rw [merge_phone]
    exact populated_ite_field hp id hl
  · intro hl
    rw [merge_website]
    exact populated_ite_field hw id hl
  · intro hl
    rw [merge_category]
    exact populated_ite_field hc id hl
  · intro hl
    rw [merge_followers]
    exact populated_ite_field hf id hl
  · intro hl
    rw [merge_display_name]
    exact populated_ite_field hd (fun h => h.1) hl
  · intro hn
    rw [merge_bio, hn]
    rfl
  · intro hn
    rw [merge_email, hn]
    rfl
  · intro hn
    rw [merge_phone, hn]
    rfl
  · intro hn
    rw [merge_website, hn]
    rfl
  · intro hn
    rw [merge_category, hn]
    rfl
  · intro hn
    rw [merge_followers, hn]
    rfl
  · intro hn
    rw [merge_display_name, hn]
    rfl

/-- C8 witness: a lead with a populated bio merged with a real enrichment
bio stays populated. -/
theorem C8_witness :
    populatedO (merge_enrichment { bio := some (("hello").data) }
      { bio := some (("world").data) }).bio = true :=
  (C8_amended { bio := some (("hello").data) }
    { bio := some (("world").data) } (by decide)).1 (by decide)

end Leadgen
